import Mathlib

/-!
# Vendor-tagged encoder factory dispatch

A shallow embedding of `Plugin~/WebRTCPlugin/UnityVideoEncoderFactory.cpp`
(namespace `unity::webrtc`): the backend selector `CreateNativeEncoderFactory`,
the resolver `FindFactory`, the constructor of `UnityVideoEncoderFactory`, and
its three operations `GetSupportedFormats`, `QueryVideoEncoder` and
`CreateVideoEncoder`.

Conventions of the embedding.

* A C++ call either returns a value, aborts in a defined way (a failed
  `RTC_DCHECK`), or has undefined behaviour. The three cases are the
  constructors of `Outcome`.
* `std::map<std::string, T>` is an association list with at most one entry per
  key; `find` and `emplace` are `mapFind` and `mapEmplace`.
* Preprocessor symbols (`UNITY_OSX`, `CUDA_PLATFORM`, ...) are the fields of
  `Build`; the collaborators that the file only calls (the factories it
  instantiates, `IsVMInitialized`, the graphics device) are the fields of `Env`
  and `IGraphicsDevice`.
* A pointer is an `Option`: `none` is `nullptr`, and a call through it is
  undefined behaviour, as is the dereference of a past-the-end iterator.
* `std::sort` is a parameter of type `StdSort`: any function that meets the
  contract the C++ standard gives it and, like every function template, acts on
  the elements only through the comparator. `libstdcxxSort` is the `std::sort`
  of libstdc++ (GCC 12), after `bits/stl_algo.h` and `bits/stl_heap.h`.
-/

namespace unity.webrtc

/-! ## Outcomes of C++ evaluation -/

/-- Outcome of evaluating a piece of the C++ code: a returned value, a defined
abort (a failed `RTC_DCHECK`), or undefined behaviour. -/
inductive Outcome (α : Type) where
  | ok : α → Outcome α
  | fatal : Outcome α
  | undefined : Outcome α
deriving DecidableEq, Repr

/-- Sequencing of outcomes: the continuation runs only after a returned value. -/
def Outcome.bind {α β : Type} (x : Outcome α) (f : α → Outcome β) : Outcome β :=
  match x with
  | .ok a => f a
  | .fatal => .fatal
  | .undefined => .undefined

/-- The converting constructor `std::string(const char* s)`. Its precondition is
that `s` points to a null-terminated array; a null pointer (here `none`)
violates it, so the behaviour is undefined. -/
def stdString (s : Option String) : Outcome String :=
  match s with
  | some str => .ok str
  | none => .undefined

/-! ## `std::map<std::string, T>` -/

/-- The member `find` of a `std::map` keyed by strings: `none` stands for the
past-the-end iterator, `some v` for an iterator whose `second` is `v`. -/
def mapFind {β : Type} : List (String × β) → String → Option β
  | [], _ => none
  | (k, v) :: rest, key => if k = key then some v else mapFind rest key

/-- The member `emplace` of a `std::map` keyed by strings: the pair is inserted
only when the key is not yet present; an existing entry is left as it is. -/
def mapEmplace {β : Type} (m : List (String × β)) (key : String) (value : β) :
    List (String × β) :=
  match mapFind m key with
  | some _ => m
  | none => m ++ [(key, value)]

/-- The keys of a map, in iteration order. -/
def mapKeys {β : Type} (m : List (String × β)) : List String :=
  m.map Prod.fst

/-! ## Data model -/

/-- The type `webrtc::SdpVideoFormat`: a codec name and a string-to-string
parameter map. -/
structure SdpVideoFormat where
  name : String
  parameters : List (String × String)
deriving DecidableEq, Repr

/-- The type `webrtc::VideoEncoderFactory::CodecInfo`, the answer of a capability
query. -/
structure CodecInfo where
  has_internal_source : Bool
deriving DecidableEq, Repr

/-- A value of `std::unique_ptr<webrtc::VideoEncoder>`: `none` is the null
pointer, `some h` owns the encoder with handle `h`. -/
abbrev VideoEncoderPtr := Option Nat

/-- The object a `webrtc::VideoEncoderFactory*` points to: the three virtual
calls of a backend. -/
structure VideoEncoderFactory where
  GetSupportedFormats : List SdpVideoFormat
  QueryVideoEncoder : SdpVideoFormat → CodecInfo
  CreateVideoEncoder : SdpVideoFormat → VideoEncoderPtr

/-- A pointer to a backend, raw (`webrtc::VideoEncoderFactory*`) or owned by a
`std::unique_ptr`: `none` is `nullptr`. -/
abbrev VideoEncoderFactoryPtr := Option VideoEncoderFactory

/-- The member access `p->...`: undefined behaviour on the null pointer. -/
def deref (p : VideoEncoderFactoryPtr) : Outcome VideoEncoderFactory :=
  match p with
  | some factory => .ok factory
  | none => .undefined

/-- Modelled from the spec: the type `VideoEncoderFactoryMap`, declared in
`UnityVideoEncoderFactory.h` (not among the sources). The spec calls it "an
ordered-by-insertion mapping from vendor tag to backend instance"; the list
order is the iteration order, and each value is the owning pointer. -/
abbrev VideoEncoderFactoryMap := List (String × VideoEncoderFactoryPtr)

/-- The `typedef std::tuple<std::string, webrtc::VideoEncoderFactory*>`. -/
abbrev VideoEncoderFactoryPair := String × VideoEncoderFactoryPtr

/-- The constant `kInternalCodecVendorName`. -/
def kInternalCodecVendorName : String := "internal"

/-- The constant `kNvidiaCodecVendorName`. -/
def kNvidiaCodecVendorName : String := "nvidia"

/-- The constant `kAppleCodecVendorName`. -/
def kAppleCodecVendorName : String := "apple"

/-- The constant `kGoogleCodecVendorName`. -/
def kGoogleCodecVendorName : String := "google"

/-- The constant `kIntelCodecVendorName`. -/
def kIntelCodecVendorName : String := "intel"

/-- The constant `kMicrosoftCodecVendorName`. -/
def kMicrosoftCodecVendorName : String := "microsoft"

/-! ## Build configuration and collaborators -/

/-- The preprocessor symbols the file branches on, and whether `RTC_DCHECK` is
compiled in. -/
structure Build where
  UNITY_OSX : Bool
  UNITY_IOS : Bool
  UNITY_ANDROID : Bool
  CUDA_PLATFORM : Bool
  RTC_DCHECK_IS_ON : Bool
deriving DecidableEq, Repr

/-- The part of `IGraphicsDevice` the selector calls. -/
structure IGraphicsDevice where
  IsCudaSupport : Bool
  GetCUcontext : Nat
  GetEncodeBufferFormat : Nat
deriving DecidableEq, Repr

/-- The collaborators the file instantiates or asks: the software factory, the
platform factories, the Android VM state, and `IsSameCodec` of
`webrtc::SdpVideoFormat`. -/
structure Env where
  InternalEncoderFactory : VideoEncoderFactory
  ObjCToNativeVideoEncoderFactory : VideoEncoderFactory
  IsVMInitialized : Bool
  CreateAndroidEncoderFactory : VideoEncoderFactory
  NvEncoderFactory : Nat → Nat → VideoEncoderFactory
  IsSameCodec : SdpVideoFormat → SdpVideoFormat → Bool

/-- Modelled from the spec: `SdpVideoFormat::IsCodecInList` of the WebRTC
library (not among the sources). The spec reads the check as "the descriptor is
actually among that backend's currently supported formats": some format of the
list is the same codec as the descriptor. -/
def IsCodecInList (env : Env) (format : SdpVideoFormat) (formats : List SdpVideoFormat) : Bool :=
  formats.any (fun other => env.IsSameCodec format other)

/-! ## Backend selector -/

/-- The function `CreateNativeEncoderFactory`. Exactly one preprocessor branch is
compiled; control that leaves a branch without returning reaches the final
`return`, which builds the `std::string` element of the tuple from `nullptr`.
The factories of the three branches are fresh objects (`release()` of a factory
just made, or `new`). -/
def CreateNativeEncoderFactory (build : Build) (env : Env) (gfxDevice : Option IGraphicsDevice) :
    Outcome VideoEncoderFactoryPair :=
  let fallThrough : Outcome VideoEncoderFactoryPair :=
    (stdString none).bind fun vendor => .ok (vendor, none)
  if build.UNITY_OSX || build.UNITY_IOS then
    .ok (kGoogleCodecVendorName, some env.ObjCToNativeVideoEncoderFactory)
  else if build.UNITY_ANDROID then
    if env.IsVMInitialized then
      .ok (kAppleCodecVendorName, some env.CreateAndroidEncoderFactory)
    else fallThrough
  else if build.CUDA_PLATFORM then
    match gfxDevice with
    | none => .undefined
    | some device =>
      if device.IsCudaSupport then
        .ok (kNvidiaCodecVendorName,
          some (env.NvEncoderFactory device.GetCUcontext device.GetEncodeBufferFormat))
      else fallThrough
  else fallThrough

/-! ## Dispatch resolver -/

/-- The function `FindFactory`. The conditional operator has type `std::string`,
so its `nullptr` operand is converted with `std::string(const char*)`; the
iterator returned by `factories.find` is dereferenced without a test against
`end()`, which is undefined behaviour for the past-the-end iterator. -/
def FindFactory (factories : VideoEncoderFactoryMap) (format : SdpVideoFormat) :
    Outcome VideoEncoderFactoryPtr :=
  let it := mapFind format.parameters "vendor"
  (stdString it).bind fun vendor =>
    match mapFind factories vendor with
    | none => .undefined
    | some second => .ok second

/-! ## Vendor registry (constructor) -/

/-- The constructor `UnityVideoEncoderFactory::UnityVideoEncoderFactory`; the
result is the member `factories_`. -/
def UnityVideoEncoderFactory (build : Build) (env : Env) (gfxDevice : Option IGraphicsDevice) :
    Outcome VideoEncoderFactoryMap :=
  let factories_ : VideoEncoderFactoryMap :=
    mapEmplace [] kInternalCodecVendorName (some env.InternalEncoderFactory)
  (CreateNativeEncoderFactory build env gfxDevice).bind fun pair =>
    let vendor := pair.1
    if vendor ≠ "" then
      let factory := pair.2
      .ok (mapEmplace factories_ vendor factory)
    else .ok factories_

/-! ## Query and create -/

/-- The macro `RTC_DCHECK(condition)`: compiled out unless `RTC_DCHECK_IS_ON`;
when compiled in, a false condition aborts. -/
def RTC_DCHECK (build : Build) (condition : Bool) : Outcome Unit :=
  if build.RTC_DCHECK_IS_ON && !condition then .fatal else .ok ()

/-- The method `UnityVideoEncoderFactory::QueryVideoEncoder`. -/
def QueryVideoEncoder (build : Build) (env : Env) (factories_ : VideoEncoderFactoryMap)
    (format : SdpVideoFormat) : Outcome CodecInfo :=
  (FindFactory factories_ format).bind fun factory =>
    (deref factory).bind fun object =>
      (RTC_DCHECK build (IsCodecInList env format object.GetSupportedFormats)).bind fun _ =>
        .ok (object.QueryVideoEncoder format)

/-- The method `UnityVideoEncoderFactory::CreateVideoEncoder`. -/
def CreateVideoEncoder (factories_ : VideoEncoderFactoryMap) (format : SdpVideoFormat) :
    Outcome VideoEncoderPtr :=
  (FindFactory factories_ format).bind fun factory =>
    (deref factory).bind fun object =>
      .ok (object.CreateVideoEncoder format)

/-! ## Capability aggregator -/

/-- The constant `LONG_MAX` of a target whose `long` has 64 bits. (With a
32-bit `long` it is 2147483647; the results below use only that it exceeds every
position of `sortOrder`.) -/
def LONG_MAX : Int := 9223372036854775807

/-- The array `sortOrder` of the lambda `findIndex`. -/
def sortOrder : List String := ["VP8", "VP9", "H264", "AV1X"]

/-- The lambda `findIndex`: the position of the codec name in `sortOrder`
(`std::find` followed by `std::distance`), or `LONG_MAX` when `std::find`
returns the end of the array. -/
def findIndex (format : SdpVideoFormat) : Int :=
  let it := sortOrder.indexOf format.name
  if it = sortOrder.length then LONG_MAX else (it : Int)

/-- The comparator lambda handed to `std::sort`. -/
def comparator (x y : SdpVideoFormat) : Bool :=
  decide (findIndex x < findIndex y)

/-- The body of the inner loop of `GetSupportedFormats`: the copy `newFormat` of
a backend format, with `"vendor"` emplaced when the registry key is not empty. -/
def newFormat (first : String) (format : SdpVideoFormat) : SdpVideoFormat :=
  if first ≠ "" then
    { format with parameters := mapEmplace format.parameters "vendor" first }
  else format

/-- One round of the outer loop of `GetSupportedFormats`: the inner loop pushes
the `newFormat` of every format of the backend behind `pair.second` onto the
vector. Calling through a null registry pointer is undefined. -/
def collectPair (acc : Outcome (List SdpVideoFormat)) (pair : String × VideoEncoderFactoryPtr) :
    Outcome (List SdpVideoFormat) :=
  acc.bind fun codecs =>
    (deref pair.2).bind fun object =>
      .ok (object.GetSupportedFormats.foldl
        (fun codecs format => codecs ++ [newFormat pair.1 format]) codecs)

/-- The two nested loops of `GetSupportedFormats`: the vector `supported_codecs`
before it is sorted. -/
def supported_codecs (factories_ : VideoEncoderFactoryMap) : Outcome (List SdpVideoFormat) :=
  factories_.foldl collectPair (.ok [])

/-- The requirement the C++ standard puts on a comparator: a strict weak
ordering (irreflexive, transitive, with transitive incomparability). -/
structure StrictWeakOrdering {α : Type} (comp : α → α → Bool) : Prop where
  irrefl : ∀ a, comp a a = false
  trans : ∀ a b c, comp a b = true → comp b c = true → comp a c = true
  equiv_trans : ∀ a b c, comp a b = false → comp b a = false →
    comp b c = false → comp c b = false → comp a c = false ∧ comp c a = false

/-- The contract of the function template `std::sort`, as the C++ standard
states it: for a comparator that is a strict weak ordering, the result is a
rearrangement of the input in which no later element compares less than an
earlier one. The relative order of equivalent elements is not part of the
contract. Being a template, `std::sort` reaches the elements only through the
comparator and by moving them, so the rearrangement it performs is determined by
the outcomes of the comparisons: relabelling the elements without changing any
comparison relabels the result (`relabel`). -/
structure StdSort where
  sort : {α : Type} → (α → α → Bool) → List α → List α
  perm : ∀ {α : Type} (comp : α → α → Bool) (v : List α),
    StrictWeakOrdering comp → (sort comp v).Perm v
  sorted : ∀ {α : Type} (comp : α → α → Bool) (v : List α), StrictWeakOrdering comp →
    (sort comp v).Pairwise (fun a b => comp b a = false)
  relabel : ∀ {α β : Type} (f : α → β) (comp : α → α → Bool) (comp₂ : β → β → Bool)
    (v : List α), (∀ a ∈ v, ∀ b ∈ v, comp₂ (f a) (f b) = comp a b) →
    sort comp₂ (v.map f) = (sort comp v).map f

/-- The method `UnityVideoEncoderFactory::GetSupportedFormats`. -/
def GetSupportedFormats (S : StdSort) (factories_ : VideoEncoderFactoryMap) :
    Outcome (List SdpVideoFormat) :=
  (supported_codecs factories_).bind fun codecs =>
    .ok (S.sort comparator codecs)

/-! ## Two implementations of the `std::sort` contract -/

/-- Insertion sort under a comparator meets the `std::sort` contract when run on
any rearrangement `pre v` of the input that does not look at the elements. -/
def sortAfter (pre : {α : Type} → List α → List α)
    (hpre : ∀ {α : Type} (v : List α), (pre v).Perm v)
    (hmap : ∀ {α β : Type} (f : α → β) (v : List α), pre (v.map f) = (pre v).map f) :
    StdSort where
  sort := fun comp v => List.insertionSort (fun a b => comp b a = false) (pre v)
  perm := fun comp v _ =>
    (List.perm_insertionSort (fun a b => comp b a = false) (pre v)).trans (hpre v)
  sorted := by
    intro α comp v h
    haveI : IsTotal α (fun a b => comp b a = false) := by
      refine ⟨fun a b => ?_⟩
      by_cases hab : comp b a = true
      · right
        by_contra hba
        have h1 : comp a b = true := by simpa using hba
        have h2 := h.trans b a b hab h1
        rw [h.irrefl b] at h2
        exact Bool.noConfusion h2
      · left
        simpa using hab
    haveI : IsTrans α (fun a b => comp b a = false) := by
      refine ⟨fun a b c hba hcb => ?_⟩
      show comp c a = false
      by_contra hca
      have hca1 : comp c a = true := by simpa using hca
      have hab : comp a b = false := by
        by_contra hab
        have hab1 : comp a b = true := by simpa using hab
        have := h.trans c a b hca1 hab1
        rw [hcb] at this
        exact Bool.noConfusion this
      have hbc : comp b c = false := by
        by_contra hbc
        have hbc1 : comp b c = true := by simpa using hbc
        have := h.trans b c a hbc1 hca1
        rw [hba] at this
        exact Bool.noConfusion this
      have := (h.equiv_trans a b c hab hba hbc hcb).2
      rw [hca1] at this
      exact Bool.noConfusion this
    exact List.sorted_insertionSort (fun a b => comp b a = false) (pre v)
  relabel := by
    intro α β f comp comp₂ v h
    show List.insertionSort (fun a b => comp₂ b a = false) (pre (v.map f))
      = (List.insertionSort (fun a b => comp b a = false) (pre v)).map f
    rw [hmap f v]
    symm
    apply List.map_insertionSort
    intro a ha b hb
    have ha2 : a ∈ v := (hpre v).mem_iff.1 ha
    have hb2 : b ∈ v := (hpre v).mem_iff.1 hb
    rw [h b hb2 a ha2]

/-- A stable implementation: insertion sort of the vector as it is. -/
def stableSort : StdSort :=
  sortAfter (fun v => v) (fun v => List.Perm.refl v) (fun _ _ => rfl)

/-- An implementation that meets the contract and is not stable: insertion sort
of the reversed vector. -/
def reversingSort : StdSort :=
  sortAfter List.reverse (fun v => List.reverse_perm v) (fun f v => (List.map_reverse f v).symm)

/-! ## The `std::sort` of libstdc++ -/

namespace libstdcxx

/-- A store `*(first + i) = x` into the vector; a position outside the vector
has no defined store. -/
def store (v : List Nat) (i x : Nat) : Option (List Nat) :=
  if i < v.length then some (v.set i x) else none

/-- The floor of the binary logarithm, `std::__lg`. -/
def lgFrom : Nat → Nat → Nat
  | 0, _ => 0
  | fuel + 1, n => if 2 ≤ n then lgFrom fuel (n / 2) + 1 else 0

/-- The call `std::iter_swap(i, j)`. -/
def iter_swap (v : List Nat) (i j : Nat) : Option (List Nat) :=
  match v[i]?, v[j]? with
  | some x, some y => (store v i y).bind fun w => store w j x
  | _, _ => none

/-- The function `std::__move_median_to_first(result, a, b, c, comp)`. -/
def move_median_to_first (comp : Nat → Nat → Bool) (v : List Nat) (result a b c : Nat) :
    Option (List Nat) :=
  match v[a]?, v[b]?, v[c]? with
  | some xa, some xb, some xc =>
    if comp xa xb then
      if comp xb xc then iter_swap v result b
      else if comp xa xc then iter_swap v result c
      else iter_swap v result a
    else if comp xa xc then iter_swap v result a
    else if comp xb xc then iter_swap v result c
    else iter_swap v result b
  | _, _, _ => none

/-- The loop `while (comp(first, pivot)) ++first;` of `__unguarded_partition`. -/
def scan_up (comp : Nat → Nat → Bool) (v : List Nat) (pivot : Nat) : Nat → Nat → Option Nat
  | 0, _ => none
  | fuel + 1, first =>
    match v[first]?, v[pivot]? with
    | some x, some p => if comp x p then scan_up comp v pivot fuel (first + 1) else some first
    | _, _ => none

/-- The loop `while (comp(pivot, last)) --last;` of `__unguarded_partition`. -/
def scan_down (comp : Nat → Nat → Bool) (v : List Nat) (pivot : Nat) : Nat → Nat → Option Nat
  | 0, _ => none
  | fuel + 1, last =>
    match v[pivot]?, v[last]? with
    | some p, some x =>
      if comp p x then
        if last = 0 then none else scan_down comp v pivot fuel (last - 1)
      else some last
    | _, _ => none

/-- The function `std::__unguarded_partition(first, last, pivot, comp)`; the
result is the vector and the returned iterator. -/
def unguarded_partition (comp : Nat → Nat → Bool) :
    Nat → List Nat → Nat → Nat → Nat → Option (List Nat × Nat)
  | 0, _, _, _, _ => none
  | fuel + 1, v, first, last, pivot =>
    match scan_up comp v pivot (v.length + 1) first with
    | none => none
    | some first =>
      if last = 0 then none else
      match scan_down comp v pivot (v.length + 1) (last - 1) with
      | none => none
      | some last =>
        if first < last then
          match iter_swap v first last with
          | none => none
          | some w => unguarded_partition comp fuel w (first + 1) last pivot
        else some (v, first)

/-- The function `std::__unguarded_partition_pivot(first, last, comp)`. -/
def unguarded_partition_pivot (comp : Nat → Nat → Bool) (v : List Nat) (first last : Nat) :
    Option (List Nat × Nat) :=
  let mid := first + (last - first) / 2
  (move_median_to_first comp v first (first + 1) mid (last - 1)).bind fun w =>
    unguarded_partition comp (w.length + 1) w (first + 1) last first

/-- The function `std::__push_heap(first, holeIndex, topIndex, value, comp)`. -/
def push_heap (comp : Nat → Nat → Bool) (first topIndex value : Nat) :
    Nat → List Nat → Nat → Option (List Nat)
  | 0, _, _ => none
  | fuel + 1, v, holeIndex =>
    let parent := (holeIndex - 1) / 2
    if topIndex < holeIndex then
      match v[first + parent]? with
      | none => none
      | some p =>
        if comp p value then
          (store v (first + holeIndex) p).bind fun w =>
            push_heap comp first topIndex value fuel w parent
        else store v (first + holeIndex) value
    else store v (first + holeIndex) value

/-- The first loop of `std::__adjust_heap`; the result is the vector, the hole
index and the second child. -/
def adjust_heap_loop (comp : Nat → Nat → Bool) (first len : Nat) :
    Nat → List Nat → Nat → Nat → Option (List Nat × Nat × Nat)
  | 0, _, _, _ => none
  | fuel + 1, v, holeIndex, secondChild =>
    if secondChild < (len - 1) / 2 then
      let child := 2 * (secondChild + 1)
      match v[first + child]?, v[first + (child - 1)]? with
      | some x, some y =>
        let chosen := if comp x y then child - 1 else child
        match v[first + chosen]? with
        | none => none
        | some z =>
          (store v (first + holeIndex) z).bind fun w =>
            adjust_heap_loop comp first len fuel w chosen chosen
      | _, _ => none
    else some (v, holeIndex, secondChild)

/-- The function `std::__adjust_heap(first, holeIndex, len, value, comp)`. -/
def adjust_heap (comp : Nat → Nat → Bool) (v : List Nat) (first holeIndex len value : Nat) :
    Option (List Nat) :=
  (adjust_heap_loop comp first len (len + 1) v holeIndex holeIndex).bind fun state =>
    let w := state.1
    let hole := state.2.1
    let secondChild := state.2.2
    if 2 ≤ len ∧ len % 2 = 0 ∧ secondChild = (len - 2) / 2 then
      let child := 2 * (secondChild + 1)
      match w[first + (child - 1)]? with
      | none => none
      | some z =>
        (store w (first + hole) z).bind fun u =>
          push_heap comp first holeIndex value (child + 1) u (child - 1)
    else push_heap comp first holeIndex value (hole + 1) w hole

/-- The function `std::__pop_heap(first, last, result, comp)`. -/
def pop_heap (comp : Nat → Nat → Bool) (v : List Nat) (first last result : Nat) :
    Option (List Nat) :=
  match v[result]?, v[first]? with
  | some value, some top =>
    (store v result top).bind fun w => adjust_heap comp w first 0 (last - first) value
  | _, _ => none

/-- The loop of `std::__make_heap`, from `parent` down to 0. -/
def make_heap_loop (comp : Nat → Nat → Bool) (first len : Nat) :
    Nat → List Nat → Option (List Nat)
  | parent, v =>
    match v[first + parent]? with
    | none => none
    | some value =>
      match adjust_heap comp v first parent len value with
      | none => none
      | some w =>
        match parent with
        | 0 => some w
        | parent + 1 => make_heap_loop comp first len parent w

/-- The function `std::__make_heap(first, last, comp)`. -/
def make_heap (comp : Nat → Nat → Bool) (v : List Nat) (first last : Nat) : Option (List Nat) :=
  if last - first < 2 then some v
  else make_heap_loop comp first (last - first) ((last - first - 2) / 2) v

/-- The function `std::__sort_heap(first, last, comp)`. -/
def sort_heap (comp : Nat → Nat → Bool) (first : Nat) : Nat → List Nat → Nat → Option (List Nat)
  | 0, _, _ => none
  | fuel + 1, v, last =>
    if 1 < last - first then
      (pop_heap comp v first (last - 1) (last - 1)).bind fun w =>
        sort_heap comp first fuel w (last - 1)
    else some v

/-- The loop of `std::__heap_select(first, middle, last, comp)` over `[i, last)`. -/
def heap_select_loop (comp : Nat → Nat → Bool) (first middle last : Nat) :
    Nat → List Nat → Nat → Option (List Nat)
  | 0, _, _ => none
  | fuel + 1, v, i =>
    if i < last then
      match v[i]?, v[first]? with
      | some x, some top =>
        if comp x top then
          (pop_heap comp v first middle i).bind fun w =>
            heap_select_loop comp first middle last fuel w (i + 1)
        else heap_select_loop comp first middle last fuel v (i + 1)
      | _, _ => none
    else some v

/-- The function `std::__partial_sort(first, middle, last, comp)`:
`__heap_select` followed by `__sort_heap`. -/
def heap_sort_range (comp : Nat → Nat → Bool) (v : List Nat) (first middle last : Nat) :
    Option (List Nat) :=
  (make_heap comp v first middle).bind fun w =>
    (heap_select_loop comp first middle last (last - middle + 1) w middle).bind fun u =>
      sort_heap comp first (middle - first + 1) u middle

/-- The function `std::__introsort_loop(first, last, depth_limit, comp)`, with
`_S_threshold = 16`. Both the recursive call and the next round of the loop run
with the decremented depth limit. -/
def introsort_loop (comp : Nat → Nat → Bool) : Nat → List Nat → Nat → Nat → Option (List Nat)
  | depth_limit, v, first, last =>
    if 16 < last - first then
      match depth_limit with
      | 0 => heap_sort_range comp v first last last
      | depth_limit + 1 =>
        match unguarded_partition_pivot comp v first last with
        | none => none
        | some (w, cut) =>
          match introsort_loop comp depth_limit w cut last with
          | none => none
          | some u => introsort_loop comp depth_limit u first cut
    else some v

/-- The loop of `std::__unguarded_linear_insert(last, comp)` for the value `val`
taken from the vector. -/
def unguarded_linear_insert_loop (comp : Nat → Nat → Bool) (val : Nat) :
    Nat → List Nat → Nat → Option (List Nat)
  | 0, _, _ => none
  | fuel + 1, v, last =>
    if last = 0 then none else
    match v[last - 1]? with
    | none => none
    | some next =>
      if comp val next then
        (store v last next).bind fun w =>
          unguarded_linear_insert_loop comp val fuel w (last - 1)
      else store v last val

/-- The function `std::__unguarded_linear_insert(last, comp)`. -/
def unguarded_linear_insert (comp : Nat → Nat → Bool) (v : List Nat) (last : Nat) :
    Option (List Nat) :=
  match v[last]? with
  | none => none
  | some val => unguarded_linear_insert_loop comp val (v.length + 1) v last

/-- The loop of `std::__insertion_sort(first, last, comp)` over `[i, last)`. -/
def insertion_sort_loop (comp : Nat → Nat → Bool) (first last : Nat) :
    Nat → List Nat → Nat → Option (List Nat)
  | 0, _, _ => none
  | fuel + 1, v, i =>
    if i = last then some v else
    match v[i]?, v[first]? with
    | some val, some head =>
      if comp val head then
        insertion_sort_loop comp first last fuel
          (v.take first ++ [val] ++ (v.drop first).take (i - first) ++ v.drop (i + 1)) (i + 1)
      else
        match unguarded_linear_insert comp v i with
        | none => none
        | some w => insertion_sort_loop comp first last fuel w (i + 1)
    | _, _ => none

/-- The function `std::__insertion_sort(first, last, comp)`. -/
def insertion_sort (comp : Nat → Nat → Bool) (v : List Nat) (first last : Nat) :
    Option (List Nat) :=
  if first = last then some v
  else insertion_sort_loop comp first last (last - first + 1) v (first + 1)

/-- The function `std::__unguarded_insertion_sort(first, last, comp)`, as a loop
over `[i, last)`. -/
def unguarded_insertion_sort (comp : Nat → Nat → Bool) (last : Nat) :
    Nat → List Nat → Nat → Option (List Nat)
  | 0, _, _ => none
  | fuel + 1, v, i =>
    if i = last then some v else
    match unguarded_linear_insert comp v i with
    | none => none
    | some w => unguarded_insertion_sort comp last fuel w (i + 1)

/-- The function `std::__final_insertion_sort(first, last, comp)`. -/
def final_insertion_sort (comp : Nat → Nat → Bool) (v : List Nat) (first last : Nat) :
    Option (List Nat) :=
  if 16 < last - first then
    (insertion_sort comp v first (first + 16)).bind fun w =>
      unguarded_insertion_sort comp last (last - first + 1) w (first + 16)
  else insertion_sort comp v first last

/-- The function `std::__sort(first, last, comp)` on the vector `0, 1, ...,
n - 1` of positions: the arrangement of the positions it ends with, or `none`
when a step reads or writes outside the vector. -/
def sort (comp : Nat → Nat → Bool) (n : Nat) : Option (List Nat) :=
  if n = 0 then some []
  else
    (introsort_loop comp (lgFrom n n * 2) (List.range n) 0 n).bind fun w =>
      final_insertion_sort comp w 0 n

end libstdcxx

/-- The comparison of the elements at two positions of a vector, as a
comparator on positions; a position outside the vector compares as not less. -/
def compAt {α : Type} (comp : α → α → Bool) (v : List α) (i j : Nat) : Bool :=
  match v[i]?, v[j]? with
  | some a, some b => comp a b
  | _, _ => false

/-- The implementation of the `std::sort` contract given by a procedure `run` on
positions: `run` is handed the comparator on positions and the length, and the
arrangement of positions it returns is applied to the vector. The arrangement is
used when it is a sorted rearrangement of the positions, which a correct sorting
procedure returns for every strict weak ordering; otherwise the vector is sorted
by insertion. -/
def sortByPositions (run : (Nat → Nat → Bool) → Nat → Option (List Nat)) : StdSort where
  sort := fun comp v =>
    match run (compAt comp v) v.length with
    | some arrangement =>
      if arrangement.Perm (List.range v.length) ∧
          arrangement.Pairwise (fun i j => compAt comp v j i = false) then
        arrangement.filterMap (fun i => v[i]?)
      else stableSort.sort comp v
    | none => stableSort.sort comp v
  perm := by
    intro α comp v h
    have hrange : ∀ w : List α, (List.range w.length).filterMap (fun i => w[i]?) = w := by
      intro w
      induction w with
      | nil => rfl
      | cons x xs ih =>
        rw [List.length_cons, List.range_succ_eq_map, List.filterMap_cons]
        simp only [List.getElem?_cons_zero, List.filterMap_map]
        congr 1
        have hfun : ((fun i => (x :: xs)[i]?) ∘ Nat.succ) = fun i => xs[i]? := by
          funext i
          simp
        rw [hfun]
        exact ih
    show (match run (compAt comp v) v.length with
      | some arrangement =>
        if arrangement.Perm (List.range v.length) ∧
            arrangement.Pairwise (fun i j => compAt comp v j i = false) then
          arrangement.filterMap (fun i => v[i]?)
        else stableSort.sort comp v
      | none => stableSort.sort comp v).Perm v
    cases run (compAt comp v) v.length with
    | none => exact stableSort.perm comp v h
    | some arrangement =>
      by_cases hc : arrangement.Perm (List.range v.length) ∧
          arrangement.Pairwise (fun i j => compAt comp v j i = false)
      · simp only [hc, and_self, if_true]
        have := hc.1.filterMap (fun i => v[i]?)
        rw [hrange v] at this
        exact this
      · simp only [hc, if_false]
        exact stableSort.perm comp v h
  sorted := by
    intro α comp v h
    show (match run (compAt comp v) v.length with
      | some arrangement =>
        if arrangement.Perm (List.range v.length) ∧
            arrangement.Pairwise (fun i j => compAt comp v j i = false) then
          arrangement.filterMap (fun i => v[i]?)
        else stableSort.sort comp v
      | none => stableSort.sort comp v).Pairwise (fun a b => comp b a = false)
    cases run (compAt comp v) v.length with
    | none => exact stableSort.sorted comp v h
    | some arrangement =>
      by_cases hc : arrangement.Perm (List.range v.length) ∧
          arrangement.Pairwise (fun i j => compAt comp v j i = false)
      · simp only [hc, and_self, if_true]
        rw [List.pairwise_filterMap]
        refine hc.2.imp ?_
        intro i j hij a ha b hb
        simp only [Option.mem_def] at ha hb
        simpa [compAt, ha, hb] using hij
      · simp only [hc, if_false]
        exact stableSort.sorted comp v h
  relabel := by
    intro α β f comp comp₂ v h
    have hcomp : compAt comp₂ (v.map f) = compAt comp v := by
      funext i j
      unfold compAt
      rw [List.getElem?_map, List.getElem?_map]
      cases hi : v[i]? with
      | none => rfl
      | some a =>
        cases hj : v[j]? with
        | none => rfl
        | some b =>
          exact h a (List.getElem?_mem hi) b (List.getElem?_mem hj)
    show (match run (compAt comp₂ (v.map f)) (v.map f).length with
      | some arrangement =>
        if arrangement.Perm (List.range (v.map f).length) ∧
            arrangement.Pairwise (fun i j => compAt comp₂ (v.map f) j i = false) then
          arrangement.filterMap (fun i => (v.map f)[i]?)
        else stableSort.sort comp₂ (v.map f)
      | none => stableSort.sort comp₂ (v.map f))
      = (match run (compAt comp v) v.length with
      | some arrangement =>
        if arrangement.Perm (List.range v.length) ∧
            arrangement.Pairwise (fun i j => compAt comp v j i = false) then
          arrangement.filterMap (fun i => v[i]?)
        else stableSort.sort comp v
      | none => stableSort.sort comp v).map f
    rw [hcomp, List.length_map]
    cases run (compAt comp v) v.length with
    | none => exact stableSort.relabel f comp comp₂ v h
    | some arrangement =>
      by_cases hc : arrangement.Perm (List.range v.length) ∧
          arrangement.Pairwise (fun i j => compAt comp v j i = false)
      · simp only [hc, and_self, if_true, List.map_filterMap, List.getElem?_map]
      · simp only [hc, if_false]
        exact stableSort.relabel f comp comp₂ v h

/-- The `std::sort` of libstdc++ as an implementation of the contract. -/
def libstdcxxSort : StdSort :=
  sortByPositions libstdcxx.sort

/-! ## Vocabulary of the statements -/

/-- The descriptors one registry entry contributes to the working list: the
formats of its backend, each passed through `newFormat` with the entry key. -/
def stampedFormats (pair : String × VideoEncoderFactoryPtr) : List SdpVideoFormat :=
  match pair.2 with
  | some object => object.GetSupportedFormats.map (newFormat pair.1)
  | none => []

/-- The value of the `"vendor"` parameter of a descriptor, if it has one. -/
def vendorOf (format : SdpVideoFormat) : Option String :=
  mapFind format.parameters "vendor"

/-- The codec name at a position of `sortOrder`. -/
def nameAtRank (rank : Int) : String :=
  if rank = 0 then "VP8" else if rank = 1 then "VP9" else if rank = 2 then "H264" else "AV1X"

/-! ## Sample inputs -/

/-- A build for macOS. -/
def osxBuild : Build :=
  { UNITY_OSX := true, UNITY_IOS := false, UNITY_ANDROID := false, CUDA_PLATFORM := false,
    RTC_DCHECK_IS_ON := true }

/-- A build for iOS. -/
def iosBuild : Build :=
  { UNITY_OSX := false, UNITY_IOS := true, UNITY_ANDROID := false, CUDA_PLATFORM := false,
    RTC_DCHECK_IS_ON := true }

/-- A build for Android. -/
def androidBuild : Build :=
  { UNITY_OSX := false, UNITY_IOS := false, UNITY_ANDROID := true, CUDA_PLATFORM := false,
    RTC_DCHECK_IS_ON := true }

/-- A build for a CUDA platform. -/
def cudaBuild : Build :=
  { UNITY_OSX := false, UNITY_IOS := false, UNITY_ANDROID := false, CUDA_PLATFORM := true,
    RTC_DCHECK_IS_ON := true }

/-- A build in which none of the platform symbols is set. -/
def plainBuild : Build :=
  { UNITY_OSX := false, UNITY_IOS := false, UNITY_ANDROID := false, CUDA_PLATFORM := false,
    RTC_DCHECK_IS_ON := true }

/-- A graphics device that reports CUDA support. -/
def cudaDevice : IGraphicsDevice :=
  { IsCudaSupport := true, GetCUcontext := 7, GetEncodeBufferFormat := 1 }

/-- A graphics device that reports no CUDA support. -/
def plainDevice : IGraphicsDevice :=
  { IsCudaSupport := false, GetCUcontext := 0, GetEncodeBufferFormat := 0 }

/-- The descriptor `VP8` without parameters. -/
def vp8 : SdpVideoFormat := { name := "VP8", parameters := [] }

/-- The descriptor `VP9` without parameters. -/
def vp9 : SdpVideoFormat := { name := "VP9", parameters := [] }

/-- The descriptor `AV1X` without parameters. -/
def av1x : SdpVideoFormat := { name := "AV1X", parameters := [] }

/-- The descriptor `H264` with a profile parameter. -/
def h264 : SdpVideoFormat :=
  { name := "H264", parameters := [("profile-level-id", "42e01f")] }

/-- A second `H264` descriptor, with another profile. -/
def h264High : SdpVideoFormat :=
  { name := "H264", parameters := [("profile-level-id", "640c1f")] }

/-- An `H264` descriptor that already carries `"vendor"` with the value
`"internal"`. -/
def h264TaggedInternal : SdpVideoFormat :=
  { name := "H264", parameters := [("vendor", "internal")] }

/-- A `VP8` descriptor that already carries `"vendor"` with a value that is no
vendor constant of the file. -/
def vp8TaggedAcme : SdpVideoFormat :=
  { name := "VP8", parameters := [("vendor", "acme")] }

/-- A `VP8` descriptor whose `"vendor"` is `kIntelCodecVendorName`, a tag under
which the constructor never registers a backend. -/
def vp8ForIntel : SdpVideoFormat :=
  { name := "VP8", parameters := [("vendor", "intel")] }

/-- A `VP9` descriptor whose `"vendor"` is `"internal"`. -/
def vp9ForInternal : SdpVideoFormat :=
  { name := "VP9", parameters := [("vendor", "internal")] }

/-- A backend that advertises the given formats and hands out encoders with the
given handle. -/
def sampleBackend (formats : List SdpVideoFormat) (handle : Nat) : VideoEncoderFactory where
  GetSupportedFormats := formats
  QueryVideoEncoder := fun _ => { has_internal_source := false }
  CreateVideoEncoder := fun _ => some handle

/-- An environment whose software backend advertises `internalFormats` and whose
platform backends advertise `nativeFormats`; two descriptors count as the same
codec when their names agree. -/
def sampleEnv (internalFormats nativeFormats : List SdpVideoFormat) : Env where
  InternalEncoderFactory := sampleBackend internalFormats 1
  ObjCToNativeVideoEncoderFactory := sampleBackend nativeFormats 2
  IsVMInitialized := true
  CreateAndroidEncoderFactory := sampleBackend nativeFormats 3
  NvEncoderFactory := fun _ _ => sampleBackend nativeFormats 4
  IsSameCodec := fun a b => decide (a.name = b.name)

/-- The registry the constructor builds on a CUDA platform with CUDA support,
from a software backend advertising `internalFormats` and an accelerated backend
advertising `nativeFormats`. -/
def cudaRegistry (internalFormats nativeFormats : List SdpVideoFormat) : VideoEncoderFactoryMap :=
  [("internal", some (sampleBackend internalFormats 1)),
   ("nvidia", some (sampleBackend nativeFormats 4))]

/-- A `VP8` descriptor whose `"vendor"` parameter is the empty string. -/
def vp8EmptyVendor : SdpVideoFormat :=
  { name := "VP8", parameters := [("vendor", "")] }

/-- The descriptor `H265`, a name outside `sortOrder`. -/
def h265 : SdpVideoFormat := { name := "H265", parameters := [] }

/-- The descriptor `AV1`, a name outside `sortOrder` (which lists `AV1X`). -/
def av1 : SdpVideoFormat := { name := "AV1", parameters := [] }

/-- An `H264` descriptor with the given profile and packetization mode. -/
def h264Format (profile mode : String) : SdpVideoFormat :=
  { name := "H264",
    parameters := [("packetization-mode", mode), ("profile-level-id", profile)] }

/-- A `VP9` descriptor with the given profile. -/
def vp9Format (profile : String) : SdpVideoFormat :=
  { name := "VP9", parameters := [("profile-id", profile)] }

/-- Eight formats of a software backend: `VP8`, two `VP9` profiles, four `H264`
formats and `AV1X`. -/
def softwareFormats : List SdpVideoFormat :=
  [vp8, vp9Format "0", vp9Format "2",
   h264Format "42001f" "1", h264Format "42001f" "0",
   h264Format "42e01f" "1", h264Format "42e01f" "0", av1x]

/-- Nine `H264` formats of an accelerated backend. -/
def acceleratedFormats : List SdpVideoFormat :=
  [h264Format "42e01f" "1", h264Format "42e01f" "0",
   h264Format "42001f" "1", h264Format "42001f" "0",
   h264Format "4d001f" "1", h264Format "4d001f" "0",
   h264Format "64001f" "1", h264Format "64001f" "0",
   h264Format "640c1f" "1"]

/-! ## Lemmas on outcomes and maps -/

theorem mapFind_append_absent {β : Type} (m : List (String × β)) (key : String) (value : β)
    (h : mapFind m key = none) : mapFind (m ++ [(key, value)]) key = some value := by
  induction m with
  | nil => simp [mapFind]
  | cons p rest ih =>
    obtain ⟨k, v⟩ := p
    by_cases hk : k = key
    · simp [mapFind, hk] at h
    · simp only [mapFind, hk, if_false] at h
      simp [mapFind, hk, ih h]

theorem mapFind_emplace_self {β : Type} (m : List (String × β)) (key : String) (value : β) :
    ∃ stored, mapFind (mapEmplace m key value) key = some stored := by
  unfold mapEmplace
  cases h : mapFind m key with
  | none => exact ⟨value, by simpa using mapFind_append_absent m key value h⟩
  | some stored => exact ⟨stored, by simpa using h⟩

theorem mapFind_some_mem_keys {β : Type} (m : List (String × β)) (key : String) (value : β)
    (h : mapFind m key = some value) : key ∈ mapKeys m := by
  induction m with
  | nil => simp [mapFind] at h
  | cons p rest ih =>
    obtain ⟨k, v⟩ := p
    by_cases hk : k = key
    · simp [mapKeys, hk]
    · simp only [mapFind, hk, if_false] at h
      have := ih h
      simp only [mapKeys] at this ⊢
      simp [this]

theorem mapFind_some_mem {β : Type} (m : List (String × β)) (key : String) (value : β)
    (h : mapFind m key = some value) : (key, value) ∈ m := by
  induction m with
  | nil => simp [mapFind] at h
  | cons p rest ih =>
    obtain ⟨k, v⟩ := p
    by_cases hk : k = key
    · simp only [mapFind, hk, if_true, Option.some.injEq] at h
      simp [hk, h]
    · simp only [mapFind, hk, if_false] at h
      simp [ih h]

/-! ## Lemmas on stamping -/

theorem newFormat_name (first : String) (format : SdpVideoFormat) :
    (newFormat first format).name = format.name := by
  unfold newFormat
  split <;> rfl

theorem vendorOf_newFormat_fresh (first : String) (format : SdpVideoFormat)
    (hfirst : first ≠ "") (hfresh : vendorOf format = none) :
    vendorOf (newFormat first format) = some first := by
  unfold vendorOf at *
  simp only [newFormat, hfirst, ne_eq, not_false_eq_true, if_true, mapEmplace, hfresh]
  exact mapFind_append_absent _ _ _ hfresh

theorem newFormat_of_vendor (first : String) (format : SdpVideoFormat) (w : String)
    (hold : vendorOf format = some w) : newFormat first format = format := by
  unfold vendorOf at hold
  unfold newFormat
  split
  · simp [mapEmplace, hold]
  · rfl

theorem vendorOf_newFormat_isSome (first : String) (format : SdpVideoFormat)
    (hfirst : first ≠ "") : ∃ v, vendorOf (newFormat first format) = some v := by
  cases h : vendorOf format with
  | none => exact ⟨first, vendorOf_newFormat_fresh first format hfirst h⟩
  | some w => exact ⟨w, by rw [newFormat_of_vendor first format w h]; exact h⟩

/-! ## Lemmas on the working list -/

theorem foldl_push_back {α β : Type} (g : α → β) (l : List α) (acc : List β) :
    l.foldl (fun codecs format => codecs ++ [g format]) acc = acc ++ l.map g := by
  induction l generalizing acc with
  | nil => simp
  | cons a rest ih => simp [ih]

theorem collectPair_ok (acc : List SdpVideoFormat) (first : String)
    (object : VideoEncoderFactory) :
    collectPair (.ok acc) (first, some object)
      = .ok (acc ++ object.GetSupportedFormats.map (newFormat first)) := by
  simp [collectPair, Outcome.bind, deref, foldl_push_back]

theorem supported_codecs_from (factories_ : VideoEncoderFactoryMap)
    (hnull : ∀ p ∈ factories_, p.2 ≠ none) (acc : List SdpVideoFormat) :
    factories_.foldl collectPair (Outcome.ok acc)
      = .ok (acc ++ factories_.flatMap stampedFormats) := by
  induction factories_ generalizing acc with
  | nil => simp
  | cons p rest ih =>
    obtain ⟨k, ptr⟩ := p
    cases ptr with
    | none => exact absurd rfl (hnull (k, none) (by simp))
    | some object =>
      have hrest : ∀ p ∈ rest, p.2 ≠ none := fun p hp => hnull p (by simp [hp])
      rw [List.foldl_cons, collectPair_ok, ih hrest]
      simp [stampedFormats]

theorem supported_codecs_eq (factories_ : VideoEncoderFactoryMap)
    (hnull : ∀ p ∈ factories_, p.2 ≠ none) :
    supported_codecs factories_ = .ok (factories_.flatMap stampedFormats) := by
  unfold supported_codecs
  rw [supported_codecs_from factories_ hnull []]
  simp

theorem GetSupportedFormats_eq (S : StdSort) (factories_ : VideoEncoderFactoryMap)
    (hnull : ∀ p ∈ factories_, p.2 ≠ none) :
    GetSupportedFormats S factories_
      = .ok (S.sort comparator (factories_.flatMap stampedFormats)) := by
  unfold GetSupportedFormats
  rw [supported_codecs_eq factories_ hnull]
  rfl

/-! ## Lemmas on the comparator -/

theorem comparator_strictWeakOrdering : StrictWeakOrdering comparator := by
  refine ⟨fun a => ?_, fun a b c hab hbc => ?_, fun a b c hab hba hbc hcb => ?_⟩
  · simp [comparator]
  · simp only [comparator, decide_eq_true_eq] at *
    omega
  · simp only [comparator, decide_eq_false_iff_not, not_lt] at *
    constructor <;> omega

theorem comparator_false_iff (a b : SdpVideoFormat) :
    comparator b a = false ↔ findIndex a ≤ findIndex b := by
  simp [comparator]

theorem mem_GetSupportedFormats_iff (S : StdSort) (codecs : List SdpVideoFormat)
    (d : SdpVideoFormat) : d ∈ S.sort comparator codecs ↔ d ∈ codecs :=
  (S.perm comparator codecs comparator_strictWeakOrdering).mem_iff

theorem sorted_GetSupportedFormats (S : StdSort) (codecs : List SdpVideoFormat) :
    (S.sort comparator codecs).Pairwise (fun a b => findIndex a ≤ findIndex b) := by
  have h := S.sorted comparator codecs comparator_strictWeakOrdering
  exact h.imp (fun {a b} hab => (comparator_false_iff a b).1 hab)

/-! ## Lemmas on the selector and the constructor -/

theorem fallThrough_undefined :
    ((stdString none).bind fun vendor => Outcome.ok (vendor, (none : VideoEncoderFactoryPtr)))
      = Outcome.undefined := rfl

theorem CreateNativeEncoderFactory_ok (build : Build) (env : Env)
    (gfxDevice : Option IGraphicsDevice) (pair : VideoEncoderFactoryPair)
    (h : CreateNativeEncoderFactory build env gfxDevice = .ok pair) :
    (pair.1 = kGoogleCodecVendorName ∨ pair.1 = kAppleCodecVendorName
        ∨ pair.1 = kNvidiaCodecVendorName) ∧ ∃ object, pair.2 = some object := by
  unfold CreateNativeEncoderFactory at h
  simp only [fallThrough_undefined] at h
  split at h
  · cases h; exact ⟨Or.inl rfl, _, rfl⟩
  · split at h
    · split at h
      · cases h; exact ⟨Or.inr (Or.inl rfl), _, rfl⟩
      · cases h
    · split at h
      · split at h
        · cases h
        · split at h
          · cases h; exact ⟨Or.inr (Or.inr rfl), _, rfl⟩
          · cases h
      · cases h

theorem constructor_shape (build : Build) (env : Env) (gfxDevice : Option IGraphicsDevice)
    (factories_ : VideoEncoderFactoryMap)
    (h : UnityVideoEncoderFactory build env gfxDevice = .ok factories_) :
    ∃ vendor object,
      factories_ = [(kInternalCodecVendorName, some env.InternalEncoderFactory),
        (vendor, some object)] ∧
      vendor ≠ "" ∧ vendor ≠ kInternalCodecVendorName := by
  unfold UnityVideoEncoderFactory at h
  cases hsel : CreateNativeEncoderFactory build env gfxDevice with
  | fatal => rw [hsel] at h; cases h
  | undefined => rw [hsel] at h; cases h
  | ok pair =>
    obtain ⟨htag, object, hobj⟩ := CreateNativeEncoderFactory_ok build env gfxDevice pair hsel
    obtain ⟨vendor, ptr⟩ := pair
    simp only at htag hobj
    subst hobj
    have hne : vendor ≠ "" := by
      rcases htag with h1 | h1 | h1 <;> rw [h1] <;> decide
    have hni : vendor ≠ kInternalCodecVendorName := by
      rcases htag with h1 | h1 | h1 <;> rw [h1] <;> decide
    have hni2 : ¬ kInternalCodecVendorName = vendor := fun e => hni e.symm
    rw [hsel] at h
    simp only [Outcome.bind, hne, ne_eq, not_false_eq_true, if_true, mapEmplace, mapFind,
      List.nil_append, hni2, if_false, List.cons_append, Outcome.ok.injEq] at h
    exact ⟨vendor, object, h.symm, hne, hni⟩

/-! ## Lemmas on resolution -/

theorem FindFactory_of_vendor (factories : VideoEncoderFactoryMap) (format : SdpVideoFormat)
    (vendor : String) (hvendor : vendorOf format = some vendor) :
    FindFactory factories format
      = match mapFind factories vendor with
        | none => .undefined
        | some second => .ok second := by
  unfold vendorOf at hvendor
  simp [FindFactory, hvendor, stdString, Outcome.bind]

theorem FindFactory_no_vendor (factories : VideoEncoderFactoryMap) (format : SdpVideoFormat)
    (hvendor : vendorOf format = none) : FindFactory factories format = .undefined := by
  unfold vendorOf at hvendor
  simp [FindFactory, hvendor, stdString, Outcome.bind]

theorem FindFactory_newFormat (factories : VideoEncoderFactoryMap) (first : String)
    (second : VideoEncoderFactoryPtr) (format : SdpVideoFormat) (hfirst : first ≠ "")
    (hfind : mapFind factories first = some second) (hfresh : vendorOf format = none) :
    FindFactory factories (newFormat first format) = .ok second := by
  rw [FindFactory_of_vendor factories _ first (vendorOf_newFormat_fresh first format hfirst hfresh),
    hfind]

theorem mem_stamped_of_two (first₁ first₂ : String) (object₁ object₂ : VideoEncoderFactory)
    (d : SdpVideoFormat) :
    d ∈ List.flatMap [(first₁, some object₁), (first₂, some object₂)] stampedFormats ↔
      (∃ format ∈ object₁.GetSupportedFormats, d = newFormat first₁ format) ∨
      (∃ format ∈ object₂.GetSupportedFormats, d = newFormat first₂ format) := by
  simp [stampedFormats, eq_comm]

/-! ## Round trip and vendor tags (C1, C2) -/

/-- C1 (amended): for every registry built by the constructor, enumeration
returns a list; every descriptor of the list is the `newFormat` of a format of a
registered backend under its registry key; and for every registry key, backend
stored under it and format of that backend that carries no `"vendor"` parameter
of its own, the emitted descriptor is in the list and `FindFactory` returns the
very pointer stored under that key. -/
theorem FindFactory_roundTrip_fresh (S : StdSort) (build : Build) (env : Env)
    (gfxDevice : Option IGraphicsDevice) (factories_ : VideoEncoderFactoryMap)
    (hctor : UnityVideoEncoderFactory build env gfxDevice = .ok factories_) :
    ∃ formats, GetSupportedFormats S factories_ = .ok formats ∧
      (∀ d ∈ formats, ∃ first object format,
        mapFind factories_ first = some (some object) ∧
        format ∈ object.GetSupportedFormats ∧ d = newFormat first format) ∧
      (∀ first object format,
        mapFind factories_ first = some (some object) →
        format ∈ object.GetSupportedFormats →
        vendorOf format = none →
        newFormat first format ∈ formats ∧
        FindFactory factories_ (newFormat first format) = .ok (some object)) := by
  obtain ⟨vendor, native, hshape, hne, hni⟩ := constructor_shape build env gfxDevice factories_ hctor
  subst hshape
  have hni2 : ¬ kInternalCodecVendorName = vendor := fun e => hni e.symm
  have hnull : ∀ p ∈ [(kInternalCodecVendorName, some env.InternalEncoderFactory),
      (vendor, some native)], p.2 ≠ none := by
    intro p hp
    simp only [List.mem_cons, List.mem_singleton, List.not_mem_nil, or_false] at hp
    rcases hp with rfl | rfl <;> simp
  refine ⟨_, GetSupportedFormats_eq S _ hnull, ?_, ?_⟩
  · intro d hd
    rw [mem_GetSupportedFormats_iff, mem_stamped_of_two] at hd
    rcases hd with ⟨format, hmem, rfl⟩ | ⟨format, hmem, rfl⟩
    · exact ⟨kInternalCodecVendorName, env.InternalEncoderFactory, format,
        by simp [mapFind], hmem, rfl⟩
    · exact ⟨vendor, native, format, by simp [mapFind, hni2], hmem, rfl⟩
  · intro first object format hfind hmem hfresh
    have hfirst : first ≠ "" := by
      by_cases h1 : kInternalCodecVendorName = first
      · rw [← h1]; decide
      · by_cases h2 : vendor = first
        · rw [← h2]; exact hne
        · simp [mapFind, h1, h2] at hfind
    refine ⟨?_, FindFactory_newFormat _ first (some object) format hfirst hfind hfresh⟩
    rw [mem_GetSupportedFormats_iff, List.mem_flatMap]
    exact ⟨(first, some object), mapFind_some_mem _ _ _ hfind,
      by simp only [stampedFormats]; exact List.mem_map_of_mem _ hmem⟩

/-- C1 (witness): the amended round trip at the registry a CUDA build makes from
a software backend advertising `VP8` and an accelerated backend advertising
`H264`. -/
theorem FindFactory_roundTrip_fresh_witness :
    UnityVideoEncoderFactory cudaBuild (sampleEnv [vp8] [h264]) (some cudaDevice)
      = .ok (cudaRegistry [vp8] [h264]) ∧
    ∃ formats, GetSupportedFormats stableSort (cudaRegistry [vp8] [h264]) = .ok formats ∧
      (∀ d ∈ formats, ∃ first object format,
        mapFind (cudaRegistry [vp8] [h264]) first = some (some object) ∧
        format ∈ object.GetSupportedFormats ∧ d = newFormat first format) ∧
      (∀ first object format,
        mapFind (cudaRegistry [vp8] [h264]) first = some (some object) →
        format ∈ object.GetSupportedFormats →
        vendorOf format = none →
        newFormat first format ∈ formats ∧
        FindFactory (cudaRegistry [vp8] [h264]) (newFormat first format) = .ok (some object)) :=
  ⟨rfl, FindFactory_roundTrip_fresh stableSort cudaBuild (sampleEnv [vp8] [h264])
    (some cudaDevice) (cudaRegistry [vp8] [h264]) rfl⟩

/-- C1 (counterexample): on a CUDA build whose accelerated backend advertises an
`H264` format that already carries `"vendor" = "internal"`, the constructor
builds a registry, enumeration emits that descriptor unchanged for the backend
stored under `"nvidia"`, and `FindFactory` resolves it to the pointer stored
under `"internal"`, a different backend. -/
theorem FindFactory_roundTrip_counterexample :
    UnityVideoEncoderFactory cudaBuild (sampleEnv [vp8] [h264TaggedInternal]) (some cudaDevice)
      = .ok (cudaRegistry [vp8] [h264TaggedInternal]) ∧
    GetSupportedFormats stableSort (cudaRegistry [vp8] [h264TaggedInternal])
      = .ok [{ name := "VP8", parameters := [("vendor", "internal")] }, h264TaggedInternal] ∧
    mapFind (cudaRegistry [vp8] [h264TaggedInternal]) "nvidia"
      = some (some (sampleBackend [h264TaggedInternal] 4)) ∧
    h264TaggedInternal ∈ (sampleBackend [h264TaggedInternal] 4).GetSupportedFormats ∧
    newFormat "nvidia" h264TaggedInternal = h264TaggedInternal ∧
    FindFactory (cudaRegistry [vp8] [h264TaggedInternal]) h264TaggedInternal
      = .ok (some (sampleBackend [vp8] 1)) ∧
    (sampleBackend [vp8] 1).GetSupportedFormats
      ≠ (sampleBackend [h264TaggedInternal] 4).GetSupportedFormats :=
  ⟨rfl, by decide, rfl, by decide, by decide, rfl, by decide⟩

/-- C2 (amended): for every registry built by the constructor, enumeration
returns a list in which every descriptor has a `"vendor"` parameter; and when no
format of a registered backend carries a `"vendor"` parameter of its own, the
value of that parameter is a key present in the registry. -/
theorem GetSupportedFormats_vendor_is_key (S : StdSort) (build : Build) (env : Env)
    (gfxDevice : Option IGraphicsDevice) (factories_ : VideoEncoderFactoryMap)
    (hctor : UnityVideoEncoderFactory build env gfxDevice = .ok factories_) :
    ∃ formats, GetSupportedFormats S factories_ = .ok formats ∧
      (∀ d ∈ formats, ∃ vendor, vendorOf d = some vendor) ∧
      ((∀ first object, mapFind factories_ first = some (some object) →
          ∀ format ∈ object.GetSupportedFormats, vendorOf format = none) →
        ∀ d ∈ formats, ∃ vendor, vendorOf d = some vendor ∧ vendor ∈ mapKeys factories_) := by
  obtain ⟨vendor, native, hshape, hne, hni⟩ := constructor_shape build env gfxDevice factories_ hctor
  subst hshape
  have hni2 : ¬ kInternalCodecVendorName = vendor := fun e => hni e.symm
  have hin : kInternalCodecVendorName ≠ "" := by decide
  have hnull : ∀ p ∈ [(kInternalCodecVendorName, some env.InternalEncoderFactory),
      (vendor, some native)], p.2 ≠ none := by
    intro p hp
    simp only [List.mem_cons, List.mem_singleton, List.not_mem_nil, or_false] at hp
    rcases hp with rfl | rfl <;> simp
  refine ⟨_, GetSupportedFormats_eq S _ hnull, ?_, ?_⟩
  · intro d hd
    rw [mem_GetSupportedFormats_iff, mem_stamped_of_two] at hd
    rcases hd with ⟨format, _, rfl⟩ | ⟨format, _, rfl⟩
    · exact vendorOf_newFormat_isSome _ format hin
    · exact vendorOf_newFormat_isSome _ format hne
  · intro hfresh d hd
    rw [mem_GetSupportedFormats_iff, mem_stamped_of_two] at hd
    rcases hd with ⟨format, hmem, rfl⟩ | ⟨format, hmem, rfl⟩
    · refine ⟨kInternalCodecVendorName, vendorOf_newFormat_fresh _ format hin ?_, by simp [mapKeys]⟩
      exact hfresh kInternalCodecVendorName env.InternalEncoderFactory (by simp [mapFind])
        format hmem
    · refine ⟨vendor, vendorOf_newFormat_fresh _ format hne ?_, by simp [mapKeys]⟩
      exact hfresh vendor native (by simp [mapFind, hni2]) format hmem

/-- C2 (witness): the amended statement at the registry a CUDA build makes from
a software backend advertising `VP8` and an accelerated backend advertising two
`H264` profiles. -/
theorem GetSupportedFormats_vendor_is_key_witness :
    UnityVideoEncoderFactory cudaBuild (sampleEnv [vp8] [h264, h264High]) (some cudaDevice)
      = .ok (cudaRegistry [vp8] [h264, h264High]) ∧
    ∃ formats, GetSupportedFormats reversingSort (cudaRegistry [vp8] [h264, h264High])
        = .ok formats ∧
      (∀ d ∈ formats, ∃ vendor, vendorOf d = some vendor) ∧
      ((∀ first object, mapFind (cudaRegistry [vp8] [h264, h264High]) first = some (some object) →
          ∀ format ∈ object.GetSupportedFormats, vendorOf format = none) →
        ∀ d ∈ formats, ∃ vendor, vendorOf d = some vendor ∧
          vendor ∈ mapKeys (cudaRegistry [vp8] [h264, h264High])) :=
  ⟨rfl, GetSupportedFormats_vendor_is_key reversingSort cudaBuild (sampleEnv [vp8] [h264, h264High])
    (some cudaDevice) (cudaRegistry [vp8] [h264, h264High]) rfl⟩

/-- C2 (counterexample): on a CUDA build whose software backend advertises a
`VP8` format that already carries `"vendor" = "acme"`, the constructor builds a
registry with the keys `"internal"` and `"nvidia"`, enumeration returns that
descriptor with its `"vendor"` unchanged, and `"acme"` is no key of the
registry. -/
theorem GetSupportedFormats_vendor_is_key_counterexample :
    UnityVideoEncoderFactory cudaBuild (sampleEnv [vp8TaggedAcme] [h264]) (some cudaDevice)
      = .ok (cudaRegistry [vp8TaggedAcme] [h264]) ∧
    GetSupportedFormats stableSort (cudaRegistry [vp8TaggedAcme] [h264])
      = .ok [vp8TaggedAcme,
          { name := "H264", parameters := [("profile-level-id", "42e01f"), ("vendor", "nvidia")] }] ∧
    vendorOf vp8TaggedAcme = some "acme" ∧
    mapKeys (cudaRegistry [vp8TaggedAcme] [h264]) = ["internal", "nvidia"] ∧
    "acme" ∉ mapKeys (cudaRegistry [vp8TaggedAcme] [h264]) :=
  ⟨rfl, by decide, by decide, by decide, by decide⟩

/-! ## Resolution failures (C3, C4) -/

theorem QueryVideoEncoder_absent_key (build : Build) (env : Env)
    (factories_ : VideoEncoderFactoryMap) (format : SdpVideoFormat) (vendor : String)
    (hvendor : vendorOf format = some vendor) (habsent : mapFind factories_ vendor = none) :
    QueryVideoEncoder build env factories_ format = .undefined ∧
    CreateVideoEncoder factories_ format = .undefined := by
  have h := FindFactory_of_vendor factories_ format vendor hvendor
  rw [habsent] at h
  simp [QueryVideoEncoder, CreateVideoEncoder, h, Outcome.bind]

/-- C3 (evaluation at the failing input): in the registry of a CUDA build, whose
keys are `"internal"` and `"nvidia"`, a descriptor with `"vendor" = "intel"`
makes `factories.find` return the past-the-end iterator, which `FindFactory`
dereferences: `QueryVideoEncoder` and `CreateVideoEncoder` have undefined
behaviour, not the defined abort of a failed check. -/
theorem QueryVideoEncoder_unknown_vendor :
    vendorOf vp8ForIntel = some "intel" ∧
    mapFind (cudaRegistry [vp8] [h264]) "intel" = none ∧
    QueryVideoEncoder cudaBuild (sampleEnv [vp8] [h264]) (cudaRegistry [vp8] [h264]) vp8ForIntel
      = .undefined ∧
    QueryVideoEncoder cudaBuild (sampleEnv [vp8] [h264]) (cudaRegistry [vp8] [h264]) vp8ForIntel
      ≠ .fatal ∧
    CreateVideoEncoder (cudaRegistry [vp8] [h264]) vp8ForIntel = .undefined ∧
    CreateVideoEncoder (cudaRegistry [vp8] [h264]) vp8ForIntel ≠ .fatal :=
  ⟨by decide, rfl, by decide, by decide, by decide, by decide⟩

/-- C4 (evaluation at the failing input): for the descriptor `VP8` without
parameters, `parameters.find("vendor")` is the end iterator, the lookup key is
built by `std::string` from `nullptr`, and `FindFactory` has undefined behaviour
before any registry lookup: in the registry of a CUDA build, and also in a map
that holds a backend under the empty key. -/
theorem FindFactory_missing_vendor :
    vendorOf vp8 = none ∧
    stdString (mapFind vp8.parameters "vendor") = .undefined ∧
    FindFactory (cudaRegistry [vp8] [h264]) vp8 = .undefined ∧
    mapFind [("", some (sampleBackend [vp8] 1))] "" = some (some (sampleBackend [vp8] 1)) ∧
    FindFactory [("", some (sampleBackend [vp8] 1))] vp8 = .undefined :=
  ⟨by decide, by decide, rfl, rfl, rfl⟩

/-! ## Order of the merged list (C5, C6) -/

theorem findIndex_table (format : SdpVideoFormat) :
    (format.name = "VP8" → findIndex format = 0) ∧
    (format.name = "VP9" → findIndex format = 1) ∧
    (format.name = "H264" → findIndex format = 2) ∧
    (format.name = "AV1X" → findIndex format = 3) ∧
    (format.name ∉ sortOrder → findIndex format = LONG_MAX) := by
  refine ⟨fun h => ?_, fun h => ?_, fun h => ?_, fun h => ?_, fun h => ?_⟩
  · simp [findIndex, sortOrder, h, List.indexOf_cons]
  · simp [findIndex, sortOrder, h, List.indexOf_cons]
  · simp [findIndex, sortOrder, h, List.indexOf_cons]
  · simp [findIndex, sortOrder, h, List.indexOf_cons]
  · have := List.indexOf_of_not_mem h
    simp [findIndex, this]

theorem sorted_names_of_example (out codecs : List SdpVideoFormat)
    (hperm : out.Perm codecs)
    (hsorted : out.Pairwise (fun a b => findIndex a ≤ findIndex b))
    (hnames : codecs.map SdpVideoFormat.name = ["VP9", "VP8", "AV1X", "H264"]) :
    out.map SdpVideoFormat.name = ["VP8", "VP9", "H264", "AV1X"] := by
  have hmem : ∀ x ∈ out, x.name = "VP9" ∨ x.name = "VP8" ∨ x.name = "AV1X" ∨ x.name = "H264" := by
    intro x hx
    have : x.name ∈ codecs.map SdpVideoFormat.name :=
      List.mem_map_of_mem _ (hperm.mem_iff.1 hx)
    rw [hnames] at this
    simpa using this
  have hback : ∀ x ∈ out, nameAtRank (findIndex x) = x.name := by
    intro x hx
    rcases hmem x hx with h | h | h | h
    · rw [(findIndex_table x).2.1 h, h]; rfl
    · rw [(findIndex_table x).1 h, h]; rfl
    · rw [(findIndex_table x).2.2.2.1 h, h]; rfl
    · rw [(findIndex_table x).2.2.1 h, h]; rfl
  have hrankOf : ∀ x : SdpVideoFormat, findIndex x = findIndex { name := x.name, parameters := [] } :=
    fun x => rfl
  have hranks : codecs.map findIndex = [1, 0, 3, 2] := by
    have : codecs.map findIndex
        = (codecs.map SdpVideoFormat.name).map
            (fun n => findIndex { name := n, parameters := [] }) := by
      rw [List.map_map]
      exact List.map_congr_left (fun x _ => hrankOf x)
    rw [this, hnames]
    decide
  have hpermRanks : (out.map findIndex).Perm [0, 1, 2, 3] := by
    refine ((hperm.map findIndex).trans ?_)
    rw [hranks]
    decide
  have hsortedRanks : (out.map findIndex).Sorted (· ≤ ·) := by
    unfold List.Sorted
    rw [List.pairwise_map]
    exact hsorted
  have htarget : ([0, 1, 2, 3] : List Int).Sorted (· ≤ ·) := by
    unfold List.Sorted
    decide
  have heq : out.map findIndex = [0, 1, 2, 3] :=
    List.eq_of_perm_of_sorted hpermRanks hsortedRanks htarget
  calc out.map SdpVideoFormat.name
      = out.map (fun x => nameAtRank (findIndex x)) :=
        (List.map_congr_left (fun x hx => hback x hx)).symm
    _ = (out.map findIndex).map nameAtRank := by rw [List.map_map]; rfl
    _ = ["VP8", "VP9", "H264", "AV1X"] := by rw [heq]; decide

/-- C5: the rank of a descriptor is 0 for `VP8`, 1 for `VP9`, 2 for `H264`, 3 for
`AV1X` and above 3 for every other name; for every registry (in whatever order
its backends are iterated) and every implementation of `std::sort`, enumeration
returns a list that is non-decreasing in rank; and backends advertising
`[AV1X, H264]` and `[VP9, VP8]`, the second iterated first, yield the names
`[VP8, VP9, H264, AV1X]` exactly. -/
theorem GetSupportedFormats_sorted_by_rank (S : StdSort) :
    (∀ format : SdpVideoFormat,
      (format.name = "VP8" → findIndex format = 0) ∧
      (format.name = "VP9" → findIndex format = 1) ∧
      (format.name = "H264" → findIndex format = 2) ∧
      (format.name = "AV1X" → findIndex format = 3) ∧
      (format.name ∉ ["VP8", "VP9", "H264", "AV1X"] → 3 < findIndex format)) ∧
    (∀ factories_ : VideoEncoderFactoryMap, (∀ p ∈ factories_, p.2 ≠ none) →
      ∃ formats, GetSupportedFormats S factories_ = .ok formats ∧
        formats.Pairwise (fun a b => findIndex a ≤ findIndex b)) ∧
    (∀ (first₁ first₂ : String) (object₁ object₂ : VideoEncoderFactory),
      object₁.GetSupportedFormats.map SdpVideoFormat.name = ["AV1X", "H264"] →
      object₂.GetSupportedFormats.map SdpVideoFormat.name = ["VP9", "VP8"] →
      ∃ formats,
        GetSupportedFormats S [(first₂, some object₂), (first₁, some object₁)] = .ok formats ∧
        formats.map SdpVideoFormat.name = ["VP8", "VP9", "H264", "AV1X"]) := by
  refine ⟨fun format => ?_, fun factories_ hnull => ?_, fun first₁ first₂ object₁ object₂ h₁ h₂ => ?_⟩
  · obtain ⟨h0, h1, h2, h3, hother⟩ := findIndex_table format
    refine ⟨h0, h1, h2, h3, fun h => ?_⟩
    rw [hother h]
    decide
  · exact ⟨_, GetSupportedFormats_eq S factories_ hnull, sorted_GetSupportedFormats S _⟩
  · have hnull : ∀ p ∈ [(first₂, some object₂), (first₁, some object₁)], p.2 ≠ none := by
      intro p hp
      simp only [List.mem_cons, List.mem_singleton, List.not_mem_nil, or_false] at hp
      rcases hp with rfl | rfl <;> simp
    refine ⟨_, GetSupportedFormats_eq S _ hnull, ?_⟩
    refine sorted_names_of_example _ _ (S.perm comparator _ comparator_strictWeakOrdering)
      (sorted_GetSupportedFormats S _) ?_
    have hname : ∀ first : String,
        (SdpVideoFormat.name ∘ newFormat first) = SdpVideoFormat.name :=
      fun first => funext (fun format => newFormat_name first format)
    simp [stampedFormats, List.map_map, hname, h₁, h₂]

/-- C5 (witness): with an implementation of `std::sort` that is not stable, a
registry of two backends yields a list that is non-decreasing in rank, and the
example of the claim yields `[VP8, VP9, H264, AV1X]`. -/
theorem GetSupportedFormats_sorted_by_rank_witness :
    (∃ formats,
      GetSupportedFormats reversingSort (cudaRegistry [h264, vp8] [h264High, av1x])
        = .ok formats ∧
      formats.Pairwise (fun a b => findIndex a ≤ findIndex b)) ∧
    (∃ formats,
      GetSupportedFormats reversingSort
        [("nvidia", some (sampleBackend [vp9, vp8] 4)),
         ("internal", some (sampleBackend [av1x, h264] 1))] = .ok formats ∧
      formats.map SdpVideoFormat.name = ["VP8", "VP9", "H264", "AV1X"]) :=
  ⟨(GetSupportedFormats_sorted_by_rank reversingSort).2.1
      (cudaRegistry [h264, vp8] [h264High, av1x])
      (by
        intro p hp
        simp only [cudaRegistry, List.mem_cons, List.mem_singleton, List.not_mem_nil,
          or_false] at hp
        rcases hp with rfl | rfl <;> simp),
    (GetSupportedFormats_sorted_by_rank reversingSort).2.2 "internal" "nvidia"
      (sampleBackend [av1x, h264] 1) (sampleBackend [vp9, vp8] 4) rfl rfl⟩

/-- C6 (amended): for every registry with non-null pointers and every
implementation of `std::sort`, the descriptors of any one rank in the list
`GetSupportedFormats` returns are a rearrangement of the descriptors of that rank
in the unsorted working list: the same descriptors with the same multiplicities,
in an order the contract of `std::sort` leaves open. -/
theorem GetSupportedFormats_equal_rank (S : StdSort) (factories_ : VideoEncoderFactoryMap)
    (hnull : ∀ p ∈ factories_, p.2 ≠ none) :
    ∃ codecs formats, supported_codecs factories_ = .ok codecs ∧
      GetSupportedFormats S factories_ = .ok formats ∧
      ∀ rank : Int, (formats.filter (fun d => decide (findIndex d = rank))).Perm
        (codecs.filter (fun d => decide (findIndex d = rank))) :=
  ⟨_, _, supported_codecs_eq factories_ hnull, GetSupportedFormats_eq S factories_ hnull,
    fun _ => (S.perm comparator _ comparator_strictWeakOrdering).filter _⟩

/-- C6 (witness): the amended statement for the `std::sort` of libstdc++ at the
registry of a CUDA build whose backends advertise seventeen formats. -/
theorem GetSupportedFormats_equal_rank_witness :
    ∃ codecs formats,
      supported_codecs (cudaRegistry softwareFormats acceleratedFormats) = .ok codecs ∧
      GetSupportedFormats libstdcxxSort (cudaRegistry softwareFormats acceleratedFormats)
        = .ok formats ∧
      ∀ rank : Int, (formats.filter (fun d => decide (findIndex d = rank))).Perm
        (codecs.filter (fun d => decide (findIndex d = rank))) :=
  GetSupportedFormats_equal_rank libstdcxxSort (cudaRegistry softwareFormats acceleratedFormats)
    (by
      intro p hp
      simp only [cudaRegistry, List.mem_cons, List.mem_singleton, List.not_mem_nil,
        or_false] at hp
      rcases hp with rfl | rfl <;> simp)

set_option maxHeartbeats 4000000 in
set_option maxRecDepth 100000 in
/-- C6 (counterexample): a CUDA build whose software backend advertises eight
formats (four of them `H264`) and whose accelerated backend advertises nine
`H264` formats. The working list has seventeen descriptors, the thirteen `H264`
ones in backend-then-original order. The `std::sort` of libstdc++ arranges the
positions as `0, 1, 2, 16, 15, ..., 8, 6, 5, 4, 3, 7`: in the list
`GetSupportedFormats` returns, the `H264` descriptors of the accelerated backend
precede those of the software backend, each group in reverse order, although all
thirteen have rank 2. -/
theorem GetSupportedFormats_stability_counterexample :
    UnityVideoEncoderFactory cudaBuild (sampleEnv softwareFormats acceleratedFormats)
        (some cudaDevice)
      = .ok (cudaRegistry softwareFormats acceleratedFormats) ∧
    supported_codecs (cudaRegistry softwareFormats acceleratedFormats)
      = .ok (softwareFormats.map (newFormat "internal")
          ++ acceleratedFormats.map (newFormat "nvidia")) ∧
    libstdcxx.sort
        (compAt comparator (softwareFormats.map (newFormat "internal")
          ++ acceleratedFormats.map (newFormat "nvidia"))) 17
      = some [0, 1, 2, 16, 15, 14, 13, 12, 11, 10, 9, 8, 6, 5, 4, 3, 7] ∧
    GetSupportedFormats libstdcxxSort (cudaRegistry softwareFormats acceleratedFormats)
      = .ok [newFormat "internal" vp8,
          newFormat "internal" (vp9Format "0"),
          newFormat "internal" (vp9Format "2"),
          newFormat "nvidia" (h264Format "640c1f" "1"),
          newFormat "nvidia" (h264Format "64001f" "0"),
          newFormat "nvidia" (h264Format "64001f" "1"),
          newFormat "nvidia" (h264Format "4d001f" "0"),
          newFormat "nvidia" (h264Format "4d001f" "1"),
          newFormat "nvidia" (h264Format "42001f" "0"),
          newFormat "nvidia" (h264Format "42001f" "1"),
          newFormat "nvidia" (h264Format "42e01f" "0"),
          newFormat "nvidia" (h264Format "42e01f" "1"),
          newFormat "internal" (h264Format "42e01f" "0"),
          newFormat "internal" (h264Format "42e01f" "1"),
          newFormat "internal" (h264Format "42001f" "0"),
          newFormat "internal" (h264Format "42001f" "1"),
          newFormat "internal" av1x] ∧
    findIndex (newFormat "internal" (h264Format "42001f" "1")) = 2 ∧
    findIndex (newFormat "nvidia" (h264Format "640c1f" "1")) = 2 ∧
    (softwareFormats.map (newFormat "internal")
        ++ acceleratedFormats.map (newFormat "nvidia")).indexOf
        (newFormat "internal" (h264Format "42001f" "1")) = 3 ∧
    (softwareFormats.map (newFormat "internal")
        ++ acceleratedFormats.map (newFormat "nvidia")).indexOf
        (newFormat "nvidia" (h264Format "640c1f" "1")) = 16 :=
  ⟨rfl, by decide, by decide, by decide, by decide, by decide, by decide, by decide⟩

/-! ## Construction and backend selection (C7, C8, C9) -/

/-- C7 (evaluation at the failing input): on an Android build whose VM is not
initialised, and on a CUDA build whose device reports no CUDA support, the
constructor registers `"internal"`, calls the selector, and the selector has
undefined behaviour: no registry results, so none with the key set
`{"internal"}`. -/
theorem constructor_degraded_no_registry (env : Env) (gfxDevice : Option IGraphicsDevice) :
    UnityVideoEncoderFactory androidBuild { env with IsVMInitialized := false } gfxDevice
      = .undefined ∧
    UnityVideoEncoderFactory cudaBuild env (some plainDevice) = .undefined ∧
    (∀ factories_ : VideoEncoderFactoryMap,
      UnityVideoEncoderFactory androidBuild { env with IsVMInitialized := false } gfxDevice
        ≠ .ok factories_ ∧
      UnityVideoEncoderFactory cudaBuild env (some plainDevice) ≠ .ok factories_) :=
  ⟨rfl, rfl, fun _ => ⟨fun h => Outcome.noConfusion h, fun h => Outcome.noConfusion h⟩⟩

/-- C8 (evaluation at the failing inputs): in each degraded case (no platform
branch compiled, VM not initialised, device without CUDA support, null device on
a CUDA build) `CreateNativeEncoderFactory` has undefined behaviour instead of
returning a pair with an empty tag, and so has the constructor. In the first
three cases the final `return` builds a `std::string` from `nullptr`; in the
last the null device is dereferenced. -/
theorem CreateNativeEncoderFactory_degraded (env : Env) (gfxDevice : Option IGraphicsDevice) :
    CreateNativeEncoderFactory plainBuild env gfxDevice = .undefined ∧
    CreateNativeEncoderFactory androidBuild { env with IsVMInitialized := false } gfxDevice
      = .undefined ∧
    CreateNativeEncoderFactory cudaBuild env (some plainDevice) = .undefined ∧
    CreateNativeEncoderFactory cudaBuild env none = .undefined ∧
    UnityVideoEncoderFactory plainBuild env gfxDevice = .undefined ∧
    UnityVideoEncoderFactory cudaBuild env none = .undefined :=
  ⟨rfl, rfl, rfl, rfl, rfl, rfl⟩

/-- C9 (evaluation at the failing inputs): the selector tags the macOS and iOS
backend with `kGoogleCodecVendorName` and the Android backend with
`kAppleCodecVendorName`; only the CUDA backend gets the identifier of its own
platform, `kNvidiaCodecVendorName`. -/
theorem CreateNativeEncoderFactory_tags (env : Env) (gfxDevice : Option IGraphicsDevice) :
    CreateNativeEncoderFactory osxBuild env gfxDevice
      = .ok ("google", some env.ObjCToNativeVideoEncoderFactory) ∧
    CreateNativeEncoderFactory iosBuild env gfxDevice
      = .ok ("google", some env.ObjCToNativeVideoEncoderFactory) ∧
    CreateNativeEncoderFactory androidBuild { env with IsVMInitialized := true } gfxDevice
      = .ok ("apple", some env.CreateAndroidEncoderFactory) ∧
    CreateNativeEncoderFactory cudaBuild env (some cudaDevice)
      = .ok ("nvidia", some (env.NvEncoderFactory 7 1)) ∧
    "google" ≠ kAppleCodecVendorName ∧ "apple" ≠ kGoogleCodecVendorName :=
  ⟨rfl, rfl, rfl, rfl, by decide, by decide⟩

/-! ## Dispatch (C10) -/

/-- C10 (amended): for every registry and descriptor whose `"vendor"` parameter
is a key under which a backend is stored, `CreateVideoEncoder` returns exactly
what that backend returns for the same descriptor; `QueryVideoEncoder` returns
exactly what that backend returns for the same descriptor when `RTC_DCHECK` is
compiled out or the descriptor is in the list of the formats of that backend,
and aborts when `RTC_DCHECK` is compiled in and the descriptor is not in that
list. -/
theorem dispatch_forwards (build : Build) (env : Env) (factories_ : VideoEncoderFactoryMap)
    (format : SdpVideoFormat) (vendor : String) (object : VideoEncoderFactory)
    (hvendor : vendorOf format = some vendor)
    (hfind : mapFind factories_ vendor = some (some object)) :
    CreateVideoEncoder factories_ format = .ok (object.CreateVideoEncoder format) ∧
    (build.RTC_DCHECK_IS_ON = false ∨
        IsCodecInList env format object.GetSupportedFormats = true →
      QueryVideoEncoder build env factories_ format = .ok (object.QueryVideoEncoder format)) ∧
    (build.RTC_DCHECK_IS_ON = true ∧
        IsCodecInList env format object.GetSupportedFormats = false →
      QueryVideoEncoder build env factories_ format = .fatal) := by
  have h := FindFactory_of_vendor factories_ format vendor hvendor
  rw [hfind] at h
  refine ⟨?_, ?_, ?_⟩
  · simp [CreateVideoEncoder, h, Outcome.bind, deref]
  · intro hpass
    rcases hpass with hoff | hin
    · simp [QueryVideoEncoder, h, Outcome.bind, deref, RTC_DCHECK, hoff]
    · simp [QueryVideoEncoder, h, Outcome.bind, deref, RTC_DCHECK, hin]
  · rintro ⟨hon, hout⟩
    simp [QueryVideoEncoder, h, Outcome.bind, deref, RTC_DCHECK, hon, hout]

/-- C10 (witness): in the registry of a CUDA build, the descriptor that
enumeration emits for the `H264` format of the accelerated backend is forwarded
to that backend by both calls. -/
theorem dispatch_forwards_witness :
    CreateVideoEncoder (cudaRegistry [vp8] [h264]) (newFormat "nvidia" h264)
      = .ok ((sampleBackend [h264] 4).CreateVideoEncoder (newFormat "nvidia" h264)) ∧
    QueryVideoEncoder cudaBuild (sampleEnv [vp8] [h264]) (cudaRegistry [vp8] [h264])
        (newFormat "nvidia" h264)
      = .ok ((sampleBackend [h264] 4).QueryVideoEncoder (newFormat "nvidia" h264)) :=
  ⟨(dispatch_forwards cudaBuild (sampleEnv [vp8] [h264]) (cudaRegistry [vp8] [h264])
      (newFormat "nvidia" h264) "nvidia" (sampleBackend [h264] 4) (by decide) rfl).1,
    (dispatch_forwards cudaBuild (sampleEnv [vp8] [h264]) (cudaRegistry [vp8] [h264])
      (newFormat "nvidia" h264) "nvidia" (sampleBackend [h264] 4) (by decide) rfl).2.1
      (Or.inr (by decide))⟩

/-- C10 (counterexample): with `RTC_DCHECK` compiled in, a `VP9` descriptor whose
`"vendor"` is the registry key `"internal"` is not among the formats of the
software backend (which advertises `VP8` only), and `QueryVideoEncoder` aborts
instead of returning what that backend returns. -/
theorem QueryVideoEncoder_dcheck_counterexample :
    vendorOf vp9ForInternal = some "internal" ∧
    mapFind (cudaRegistry [vp8] [h264]) "internal" = some (some (sampleBackend [vp8] 1)) ∧
    cudaBuild.RTC_DCHECK_IS_ON = true ∧
    QueryVideoEncoder cudaBuild (sampleEnv [vp8] [h264]) (cudaRegistry [vp8] [h264])
      vp9ForInternal = .fatal ∧
    (sampleBackend [vp8] 1).QueryVideoEncoder vp9ForInternal = { has_internal_source := false } :=
  ⟨by decide, rfl, rfl, by decide, rfl⟩

/-! ## Stamping and merging (C14, C15) -/

theorem mapFind_append_other {β : Type} (m : List (String × β)) (key other : String) (value : β)
    (hne : other ≠ key) : mapFind (m ++ [(other, value)]) key = mapFind m key := by
  induction m with
  | nil => simp [mapFind, hne]
  | cons p rest ih =>
    obtain ⟨k, v⟩ := p
    by_cases hk : k = key
    · simp [mapFind, hk]
    · simp [mapFind, hk, ih]

theorem mapFind_emplace_other {β : Type} (m : List (String × β)) (key other : String) (value : β)
    (hne : other ≠ key) : mapFind (mapEmplace m other value) key = mapFind m key := by
  unfold mapEmplace
  cases mapFind m other with
  | some _ => rfl
  | none => exact mapFind_append_other m key other value hne

theorem newFormat_other_key (first : String) (format : SdpVideoFormat) (key : String)
    (hkey : key ≠ "vendor") :
    mapFind (newFormat first format).parameters key = mapFind format.parameters key := by
  unfold newFormat
  split
  · exact mapFind_emplace_other _ key "vendor" first (fun h => hkey h.symm)
  · rfl

theorem length_stamped (factories_ : VideoEncoderFactoryMap) :
    (factories_.flatMap stampedFormats).length
      = (factories_.map fun pair =>
          match pair.2 with
          | some object => object.GetSupportedFormats.length
          | none => 0).sum := by
  induction factories_ with
  | nil => rfl
  | cons p rest ih =>
    obtain ⟨k, ptr⟩ := p
    cases ptr <;> simp [stampedFormats, ih]

theorem countP_name_stamped (factories_ : VideoEncoderFactoryMap) (name : String) :
    (factories_.flatMap stampedFormats).countP (fun d => decide (d.name = name))
      = (factories_.map fun pair =>
          match pair.2 with
          | some object => object.GetSupportedFormats.countP (fun d => decide (d.name = name))
          | none => 0).sum := by
  induction factories_ with
  | nil => rfl
  | cons p rest ih =>
    obtain ⟨k, ptr⟩ := p
    cases ptr with
    | none => simp [stampedFormats, ih]
    | some object =>
      have hmap : List.countP (fun d => decide (d.name = name))
            (object.GetSupportedFormats.map (newFormat k))
          = List.countP (fun d => decide (d.name = name)) object.GetSupportedFormats := by
        rw [List.countP_map]
        congr 1
        funext d
        simp [newFormat_name]
      simp only [List.flatMap_cons, List.countP_append, List.map_cons, List.sum_cons, ih]
      simp only [stampedFormats, hmap]

/-- C14 (amended): for every registry with non-null pointers, every backend
stored under a non-empty tag and every format it reports, the descriptor
`newFormat` makes of the format is in the list `GetSupportedFormats` returns; it
has the codec name of the format and the value of the format for every
parameter key other than `"vendor"`; its `"vendor"` is the tag when the format
carries no `"vendor"` of its own, and the own value of the format otherwise. -/
theorem GetSupportedFormats_stamps (S : StdSort) (factories_ : VideoEncoderFactoryMap)
    (hnull : ∀ p ∈ factories_, p.2 ≠ none)
    (tag : String) (object : VideoEncoderFactory) (format : SdpVideoFormat)
    (hentry : (tag, some object) ∈ factories_) (htag : tag ≠ "")
    (hformat : format ∈ object.GetSupportedFormats) :
    ∃ formats, GetSupportedFormats S factories_ = .ok formats ∧
      newFormat tag format ∈ formats ∧
      (newFormat tag format).name = format.name ∧
      (∀ key, key ≠ "vendor" →
        mapFind (newFormat tag format).parameters key = mapFind format.parameters key) ∧
      (vendorOf format = none → vendorOf (newFormat tag format) = some tag) ∧
      (∀ own, vendorOf format = some own → vendorOf (newFormat tag format) = some own) := by
  refine ⟨_, GetSupportedFormats_eq S factories_ hnull, ?_, newFormat_name tag format,
    fun key hkey => newFormat_other_key tag format key hkey,
    fun hfresh => vendorOf_newFormat_fresh tag format htag hfresh,
    fun own hown => by rw [newFormat_of_vendor tag format own hown]; exact hown⟩
  rw [mem_GetSupportedFormats_iff, List.mem_flatMap]
  exact ⟨(tag, some object), hentry, by simp only [stampedFormats]; exact List.mem_map_of_mem _ hformat⟩

/-- C14 (witness): the amended statement for the `H264` format of the backend
stored under `"nvidia"` in the registry of a CUDA build. -/
theorem GetSupportedFormats_stamps_witness :
    ∃ formats, GetSupportedFormats stableSort (cudaRegistry [vp8] [h264]) = .ok formats ∧
      newFormat "nvidia" h264 ∈ formats ∧
      (newFormat "nvidia" h264).name = h264.name ∧
      (∀ key, key ≠ "vendor" →
        mapFind (newFormat "nvidia" h264).parameters key = mapFind h264.parameters key) ∧
      (vendorOf h264 = none → vendorOf (newFormat "nvidia" h264) = some "nvidia") ∧
      (∀ own, vendorOf h264 = some own → vendorOf (newFormat "nvidia" h264) = some own) :=
  GetSupportedFormats_stamps stableSort (cudaRegistry [vp8] [h264])
    (by
      intro p hp
      simp only [cudaRegistry, List.mem_cons, List.mem_singleton, List.not_mem_nil,
        or_false] at hp
      rcases hp with rfl | rfl <;> simp)
    "nvidia" (sampleBackend [h264] 4) h264 (by simp [cudaRegistry]) (by decide)
    (by simp [sampleBackend])

/-- C14 (counterexample): the backend stored under the non-empty tag `"nvidia"`
reports an `H264` format that already carries `"vendor" = "internal"`; the
descriptor `GetSupportedFormats` emits for it has `"vendor"` equal to
`"internal"`, not to the tag. -/
theorem GetSupportedFormats_stamps_counterexample :
    mapFind (cudaRegistry [vp8] [h264TaggedInternal]) "nvidia"
      = some (some (sampleBackend [h264TaggedInternal] 4)) ∧
    h264TaggedInternal ∈ (sampleBackend [h264TaggedInternal] 4).GetSupportedFormats ∧
    supported_codecs (cudaRegistry [vp8] [h264TaggedInternal])
      = .ok [{ name := "VP8", parameters := [("vendor", "internal")] },
          { name := "H264", parameters := [("vendor", "internal")] }] ∧
    GetSupportedFormats stableSort (cudaRegistry [vp8] [h264TaggedInternal])
      = .ok [{ name := "VP8", parameters := [("vendor", "internal")] },
          { name := "H264", parameters := [("vendor", "internal")] }] ∧
    vendorOf (newFormat "nvidia" h264TaggedInternal) = some "internal" ∧
    vendorOf (newFormat "nvidia" h264TaggedInternal) ≠ some "nvidia" :=
  ⟨rfl, by decide, by decide, by decide, by decide, by decide⟩

/-- C15: for every registry with non-null pointers and every implementation of
`std::sort`, the list `GetSupportedFormats` returns is a rearrangement of the
concatenation of the stamped format lists of the registered backends; its length
is the sum of the lengths of the format lists of the backends; every descriptor
occurs in it as often as in that concatenation; and a codec name occurs in it as
often as the backends advertise it, summed over the backends. -/
theorem GetSupportedFormats_merge (S : StdSort) (factories_ : VideoEncoderFactoryMap)
    (hnull : ∀ p ∈ factories_, p.2 ≠ none) :
    ∃ formats, GetSupportedFormats S factories_ = .ok formats ∧
      formats.Perm (factories_.flatMap stampedFormats) ∧
      formats.length
        = (factories_.map fun pair =>
            match pair.2 with
            | some object => object.GetSupportedFormats.length
            | none => 0).sum ∧
      (∀ d, formats.count d = (factories_.flatMap stampedFormats).count d) ∧
      (∀ name : String,
        formats.countP (fun d => decide (d.name = name))
          = (factories_.map fun pair =>
              match pair.2 with
              | some object =>
                object.GetSupportedFormats.countP (fun d => decide (d.name = name))
              | none => 0).sum) := by
  have hperm := S.perm comparator (factories_.flatMap stampedFormats) comparator_strictWeakOrdering
  refine ⟨_, GetSupportedFormats_eq S factories_ hnull, hperm, ?_, fun d => hperm.count_eq d,
    fun name => ?_⟩
  · rw [hperm.length_eq, length_stamped]
  · rw [hperm.countP_eq, countP_name_stamped]

/-- C15 (witness): in the registry of a CUDA build whose two backends both
advertise `H264`, the merged list has the three descriptors of the two backends,
and `H264` occurs twice. -/
theorem GetSupportedFormats_merge_witness :
    ∃ formats,
      GetSupportedFormats reversingSort (cudaRegistry [vp8, h264] [h264]) = .ok formats ∧
      formats.Perm ((cudaRegistry [vp8, h264] [h264]).flatMap stampedFormats) ∧
      formats.length
        = ((cudaRegistry [vp8, h264] [h264]).map fun pair =>
            match pair.2 with
            | some object => object.GetSupportedFormats.length
            | none => 0).sum ∧
      (∀ d, formats.count d = ((cudaRegistry [vp8, h264] [h264]).flatMap stampedFormats).count d) ∧
      (∀ name : String,
        formats.countP (fun d => decide (d.name = name))
          = ((cudaRegistry [vp8, h264] [h264]).map fun pair =>
              match pair.2 with
              | some object =>
                object.GetSupportedFormats.countP (fun d => decide (d.name = name))
              | none => 0).sum) :=
  GetSupportedFormats_merge reversingSort (cudaRegistry [vp8, h264] [h264])
    (by
      intro p hp
      simp only [cudaRegistry, List.mem_cons, List.mem_singleton, List.not_mem_nil,
        or_false] at hp
      rcases hp with rfl | rfl <;> simp)

/-! ## The comparator (C16) -/

/-- C16: the comparator handed to `std::sort`, `findIndex x < findIndex y`, is a
strict weak ordering on all descriptors, those with a name outside `sortOrder`
(rank `LONG_MAX`) included: it is irreflexive and transitive, and
incomparability is transitive. -/
theorem comparator_is_strict_weak_ordering :
    StrictWeakOrdering comparator ∧
    (∀ a, comparator a a = false) ∧
    (∀ a b c, comparator a b = true → comparator b c = true → comparator a c = true) ∧
    (∀ a b c, comparator a b = false → comparator b a = false →
      comparator b c = false → comparator c b = false →
      comparator a c = false ∧ comparator c a = false) ∧
    (∀ a : SdpVideoFormat, a.name ∉ sortOrder → findIndex a = LONG_MAX) :=
  ⟨comparator_strictWeakOrdering, comparator_strictWeakOrdering.irrefl,
    comparator_strictWeakOrdering.trans, comparator_strictWeakOrdering.equiv_trans,
    fun a h => (findIndex_table a).2.2.2.2 h⟩

/-- C16 (witness): transitivity at `VP8 < H264 < H265`, and transitivity of
incomparability at three descriptors with names outside `sortOrder`. -/
theorem comparator_is_strict_weak_ordering_witness :
    comparator vp8 h265 = true ∧
    (comparator h265 { name := "H265", parameters := [("vendor", "nvidia")] } = false ∧
      comparator { name := "H265", parameters := [("vendor", "nvidia")] } h265 = false) :=
  ⟨comparator_is_strict_weak_ordering.2.2.1 vp8 h264 h265 (by decide) (by decide),
    comparator_is_strict_weak_ordering.2.2.2.1 h265 av1
      { name := "H265", parameters := [("vendor", "nvidia")] }
      (by decide) (by decide) (by decide) (by decide)⟩

/-! ## Empty or missing vendor tags (C11) -/

theorem QueryVideoEncoder_ok_inv (build : Build) (env : Env)
    (factories_ : VideoEncoderFactoryMap) (format : SdpVideoFormat) (info : CodecInfo)
    (h : QueryVideoEncoder build env factories_ format = .ok info) :
    ∃ vendor object, vendorOf format = some vendor ∧
      mapFind factories_ vendor = some (some object) ∧
      info = object.QueryVideoEncoder format := by
  cases hv : vendorOf format with
  | none =>
    rw [QueryVideoEncoder, FindFactory_no_vendor factories_ format hv] at h
    cases h
  | some vendor =>
    have hfind := FindFactory_of_vendor factories_ format vendor hv
    cases hm : mapFind factories_ vendor with
    | none =>
      rw [hm] at hfind
      rw [QueryVideoEncoder, hfind] at h
      cases h
    | some ptr =>
      rw [hm] at hfind
      cases ptr with
      | none =>
        rw [QueryVideoEncoder, hfind] at h
        cases h
      | some object =>
        refine ⟨vendor, object, rfl, hm, ?_⟩
        rw [QueryVideoEncoder, hfind] at h
        simp only [Outcome.bind, deref, RTC_DCHECK] at h
        split at h
        · cases h
          rfl
        · cases h
        · cases h

theorem CreateVideoEncoder_ok_inv (factories_ : VideoEncoderFactoryMap)
    (format : SdpVideoFormat) (encoder : VideoEncoderPtr)
    (h : CreateVideoEncoder factories_ format = .ok encoder) :
    ∃ vendor object, vendorOf format = some vendor ∧
      mapFind factories_ vendor = some (some object) ∧
      encoder = object.CreateVideoEncoder format := by
  cases hv : vendorOf format with
  | none =>
    rw [CreateVideoEncoder, FindFactory_no_vendor factories_ format hv] at h
    cases h
  | some vendor =>
    have hfind := FindFactory_of_vendor factories_ format vendor hv
    cases hm : mapFind factories_ vendor with
    | none =>
      rw [hm] at hfind
      rw [CreateVideoEncoder, hfind] at h
      cases h
    | some ptr =>
      rw [hm] at hfind
      cases ptr with
      | none =>
        rw [CreateVideoEncoder, hfind] at h
        cases h
      | some object =>
        refine ⟨vendor, object, rfl, hm, ?_⟩
        rw [CreateVideoEncoder, hfind] at h
        simp only [Outcome.bind, deref] at h
        cases h
        rfl

theorem constructor_keys_nonempty (build : Build) (env : Env)
    (gfxDevice : Option IGraphicsDevice) (factories_ : VideoEncoderFactoryMap)
    (hctor : UnityVideoEncoderFactory build env gfxDevice = .ok factories_)
    (key : String) (second : VideoEncoderFactoryPtr)
    (hfind : mapFind factories_ key = some second) : key ≠ "" := by
  obtain ⟨vendor, native, hshape, hne, _⟩ := constructor_shape build env gfxDevice factories_ hctor
  subst hshape
  by_cases h1 : kInternalCodecVendorName = key
  · rw [← h1]; decide
  · by_cases h2 : vendor = key
    · rw [← h2]; exact hne
    · simp [mapFind, h1, h2] at hfind

/-- C11 (amended): in every registry built by the constructor no backend is
stored under the empty string, and the tag `"internal"` resolves to the software
backend; whenever `QueryVideoEncoder` or `CreateVideoEncoder` returns a result,
the descriptor carries a non-empty `"vendor"` parameter that is a key of the
registry, and the result is the answer of the backend stored under that key. A
descriptor whose tag is empty or missing is therefore never routed to the
`"internal"` backend. -/
theorem dispatch_only_by_registered_tag (build : Build) (env : Env)
    (gfxDevice : Option IGraphicsDevice) (factories_ : VideoEncoderFactoryMap)
    (format : SdpVideoFormat)
    (hctor : UnityVideoEncoderFactory build env gfxDevice = .ok factories_) :
    mapFind factories_ "" = none ∧
    (vendorOf format = some kInternalCodecVendorName →
      FindFactory factories_ format = .ok (some env.InternalEncoderFactory)) ∧
    (∀ info, QueryVideoEncoder build env factories_ format = .ok info →
      ∃ vendor object, vendorOf format = some vendor ∧ vendor ≠ "" ∧
        mapFind factories_ vendor = some (some object) ∧
        info = object.QueryVideoEncoder format) ∧
    (∀ encoder, CreateVideoEncoder factories_ format = .ok encoder →
      ∃ vendor object, vendorOf format = some vendor ∧ vendor ≠ "" ∧
        mapFind factories_ vendor = some (some object) ∧
        encoder = object.CreateVideoEncoder format) := by
  have hkeys := constructor_keys_nonempty build env gfxDevice factories_ hctor
  refine ⟨?_, fun hv => ?_, fun info h => ?_, fun encoder h => ?_⟩
  · cases hm : mapFind factories_ "" with
    | none => rfl
    | some second => exact absurd rfl (hkeys "" second hm)
  · obtain ⟨vendor, native, hshape, _, _⟩ :=
      constructor_shape build env gfxDevice factories_ hctor
    subst hshape
    rw [FindFactory_of_vendor _ format kInternalCodecVendorName hv]
    simp [mapFind]
  · obtain ⟨vendor, object, hv, hm, hinfo⟩ :=
      QueryVideoEncoder_ok_inv build env factories_ format info h
    exact ⟨vendor, object, hv, hkeys vendor _ hm, hm, hinfo⟩
  · obtain ⟨vendor, object, hv, hm, henc⟩ :=
      CreateVideoEncoder_ok_inv factories_ format encoder h
    exact ⟨vendor, object, hv, hkeys vendor _ hm, hm, henc⟩

/-- C11 (witness): in the registry of a CUDA build, the `VP8` descriptor stamped
`"internal"` is answered, and its tag is a non-empty key of the registry. -/
theorem dispatch_only_by_registered_tag_witness :
    QueryVideoEncoder cudaBuild (sampleEnv [vp8] [h264]) (cudaRegistry [vp8] [h264])
        (newFormat "internal" vp8) = .ok { has_internal_source := false } ∧
    ∃ vendor object, vendorOf (newFormat "internal" vp8) = some vendor ∧ vendor ≠ "" ∧
      mapFind (cudaRegistry [vp8] [h264]) vendor = some (some object) ∧
      ({ has_internal_source := false } : CodecInfo)
        = object.QueryVideoEncoder (newFormat "internal" vp8) :=
  ⟨by decide,
    (dispatch_only_by_registered_tag cudaBuild (sampleEnv [vp8] [h264]) (some cudaDevice)
      (cudaRegistry [vp8] [h264]) (newFormat "internal" vp8) rfl).2.2.1
      { has_internal_source := false } (by decide)⟩

/-- C11 (counterexample): in the registry of a CUDA build, neither the `VP8`
descriptor without a `"vendor"` parameter nor the one whose `"vendor"` is the
empty string is answered by the `"internal"` backend: both calls have undefined
behaviour for both descriptors, while the software backend itself would answer
them. -/
theorem empty_vendor_not_internal_counterexample :
    UnityVideoEncoderFactory cudaBuild (sampleEnv [vp8] [h264]) (some cudaDevice)
      = .ok (cudaRegistry [vp8] [h264]) ∧
    mapFind (cudaRegistry [vp8] [h264]) "internal" = some (some (sampleBackend [vp8] 1)) ∧
    vendorOf vp8 = none ∧ vendorOf vp8EmptyVendor = some "" ∧
    QueryVideoEncoder cudaBuild (sampleEnv [vp8] [h264]) (cudaRegistry [vp8] [h264]) vp8
      = .undefined ∧
    CreateVideoEncoder (cudaRegistry [vp8] [h264]) vp8 = .undefined ∧
    QueryVideoEncoder cudaBuild (sampleEnv [vp8] [h264]) (cudaRegistry [vp8] [h264])
      vp8EmptyVendor = .undefined ∧
    CreateVideoEncoder (cudaRegistry [vp8] [h264]) vp8EmptyVendor = .undefined ∧
    (sampleBackend [vp8] 1).CreateVideoEncoder vp8 = some 1 ∧
    (sampleBackend [vp8] 1).QueryVideoEncoder vp8EmptyVendor = { has_internal_source := false } :=
  ⟨rfl, rfl, by decide, by decide, by decide, by decide, by decide, by decide, rfl, rfl⟩

/-! ## Enumeration and the check of `QueryVideoEncoder` (C12) -/

theorem findIndex_of_name_eq (a b : SdpVideoFormat) (h : a.name = b.name) :
    findIndex a = findIndex b := by
  unfold findIndex
  rw [h]

theorem zip_names_eq (codecs₁ codecs₂ : List SdpVideoFormat)
    (hnames : codecs₁.map SdpVideoFormat.name = codecs₂.map SdpVideoFormat.name) :
    ∀ p ∈ codecs₁.zip codecs₂, p.1.name = p.2.name := by
  induction codecs₁ generalizing codecs₂ with
  | nil => intro p hp; simp at hp
  | cons a rest ih =>
    cases codecs₂ with
    | nil => intro p hp; simp at hp
    | cons b rest₂ =>
      simp only [List.map_cons, List.cons.injEq] at hnames
      intro p hp
      simp only [List.zip_cons_cons, List.mem_cons] at hp
      rcases hp with rfl | hp
      · exact hnames.1
      · exact ih rest₂ hnames.2 p hp

theorem sort_same_rearrangement (S : StdSort) (codecs₁ codecs₂ : List SdpVideoFormat)
    (hnames : codecs₁.map SdpVideoFormat.name = codecs₂.map SdpVideoFormat.name) :
    ∃ w : List (SdpVideoFormat × SdpVideoFormat),
      w.Perm (codecs₁.zip codecs₂) ∧
      S.sort comparator codecs₁ = w.map Prod.fst ∧
      S.sort comparator codecs₂ = w.map Prod.snd := by
  have hlen : codecs₁.length = codecs₂.length := by
    have := congrArg List.length hnames
    simpa using this
  have hpair := zip_names_eq codecs₁ codecs₂ hnames
  have hswo : StrictWeakOrdering
      (fun p q : SdpVideoFormat × SdpVideoFormat => comparator p.1 q.1) :=
    ⟨fun p => comparator_strictWeakOrdering.irrefl p.1,
      fun p q r => comparator_strictWeakOrdering.trans p.1 q.1 r.1,
      fun p q r => comparator_strictWeakOrdering.equiv_trans p.1 q.1 r.1⟩
  refine ⟨S.sort (fun p q => comparator p.1 q.1) (codecs₁.zip codecs₂),
    S.perm _ _ hswo, ?_, ?_⟩
  · have h := S.relabel Prod.fst (fun p q : SdpVideoFormat × SdpVideoFormat =>
      comparator p.1 q.1) comparator (codecs₁.zip codecs₂) (fun _ _ _ _ => rfl)
    rw [List.map_fst_zip _ _ (le_of_eq hlen)] at h
    exact h
  · have h := S.relabel Prod.snd (fun p q : SdpVideoFormat × SdpVideoFormat =>
      comparator p.1 q.1) comparator (codecs₁.zip codecs₂)
      (fun a ha b hb => by
        simp only [comparator]
        rw [findIndex_of_name_eq a.1 a.2 (hpair a ha), findIndex_of_name_eq b.1 b.2 (hpair b hb)])
    rw [List.map_snd_zip _ _ (le_of_eq hlen.symm)] at h
    exact h

/-- C13: for any two working lists of equal length whose descriptors have
pairwise equal codec names, whatever their parameter maps, the sort step applies
one rearrangement to both: there is a rearrangement of the list of the pairs of
corresponding descriptors whose first components are the one sorted list and
whose second components are the other. So the two sorted lists have the same
sequence of codec names, and so have the lists `GetSupportedFormats` returns for
two registries with such working lists. -/
theorem sort_ignores_parameters (S : StdSort) (codecs₁ codecs₂ : List SdpVideoFormat)
    (hnames : codecs₁.map SdpVideoFormat.name = codecs₂.map SdpVideoFormat.name) :
    (∃ w : List (SdpVideoFormat × SdpVideoFormat),
      w.Perm (codecs₁.zip codecs₂) ∧
      S.sort comparator codecs₁ = w.map Prod.fst ∧
      S.sort comparator codecs₂ = w.map Prod.snd) ∧
    (S.sort comparator codecs₁).map SdpVideoFormat.name
      = (S.sort comparator codecs₂).map SdpVideoFormat.name ∧
    (∀ registry₁ registry₂ : VideoEncoderFactoryMap,
      supported_codecs registry₁ = .ok codecs₁ →
      supported_codecs registry₂ = .ok codecs₂ →
      ∃ formats₁ formats₂,
        GetSupportedFormats S registry₁ = .ok formats₁ ∧
        GetSupportedFormats S registry₂ = .ok formats₂ ∧
        formats₁.map SdpVideoFormat.name = formats₂.map SdpVideoFormat.name) := by
  obtain ⟨w, hperm, h₁, h₂⟩ := sort_same_rearrangement S codecs₁ codecs₂ hnames
  have hsame : (S.sort comparator codecs₁).map SdpVideoFormat.name
      = (S.sort comparator codecs₂).map SdpVideoFormat.name := by
    rw [h₁, h₂, List.map_map, List.map_map]
    apply List.map_congr_left
    intro p hp
    exact zip_names_eq codecs₁ codecs₂ hnames p (hperm.mem_iff.1 hp)
  refine ⟨⟨w, hperm, h₁, h₂⟩, hsame, fun registry₁ registry₂ hw₁ hw₂ => ?_⟩
  refine ⟨S.sort comparator codecs₁, S.sort comparator codecs₂, ?_, ?_, hsame⟩
  · simp [GetSupportedFormats, hw₁, Outcome.bind]
  · simp [GetSupportedFormats, hw₂, Outcome.bind]

/-- C13 (witness): two working lists with the names `H264, VP8, H264` and
different parameters, sorted by an implementation of `std::sort` that is not
stable, and the registries of two CUDA builds with those working lists. -/
theorem sort_ignores_parameters_witness :
    (reversingSort.sort comparator
        [h264, vp8, h264High]).map SdpVideoFormat.name
      = (reversingSort.sort comparator
        [h264TaggedInternal, vp8TaggedAcme, h264]).map SdpVideoFormat.name ∧
    ∃ formats₁ formats₂,
      GetSupportedFormats reversingSort (cudaRegistry [h264, vp8] [h264High]) = .ok formats₁ ∧
      GetSupportedFormats reversingSort (cudaRegistry [h264High] [vp8, h264]) = .ok formats₂ ∧
      formats₁.map SdpVideoFormat.name = formats₂.map SdpVideoFormat.name :=
  ⟨(sort_ignores_parameters reversingSort [h264, vp8, h264High]
      [h264TaggedInternal, vp8TaggedAcme, h264] (by decide)).2.1,
    (sort_ignores_parameters reversingSort
      [newFormat "internal" h264, newFormat "internal" vp8, newFormat "nvidia" h264High]
      [newFormat "internal" h264High, newFormat "nvidia" vp8, newFormat "nvidia" h264]
      (by decide)).2.2
      (cudaRegistry [h264, vp8] [h264High]) (cudaRegistry [h264High] [vp8, h264])
      (by decide) (by decide)⟩

end unity.webrtc
